import Mathlib

/-
Verification of the placement/routing core of the beehive actor runtime
(src/registery.go): the registry's `storeOrGet` placement primitive, the
per-actor mapper (key binding, placement lock, migration), and the RPC layer
(dial backoff, raft failure reporting, `ProcessCmd`).

The Go code is shallowly embedded: etcd reads/writes become an explicit store
(a function from dictionary keys to optional registry values), goroutine and
network effects become oracle parameters recording the outcome of each external
step, and `glog.Fatalf` (which calls os.Exit, so deferred functions do NOT run)
is modelled by an `Option`/flag that marks the run as aborted.  Machine
integers (`uint32` counters) are `Nat` with explicit reduction mod 2^32 where
the source can overflow.
-/

namespace BH

/-! ## Registry data model (src/registery.go, part 1) -/

/-- `regVal` — a registry record `{stage_id, rcvr_id}` (uint64/uint32 as Nat). -/
structure regVal where
  StageId : Nat
  RcvrId : Nat
deriving DecidableEq, Repr

/-- `DictionaryKey` — a `(Dict, Key)` pair of opaque strings. -/
structure DictionaryKey where
  Dict : String
  Key : String
deriving DecidableEq, Repr

/-- `MapSet` — a slice of dictionary keys (the unit of ownership claim). -/
abbrev MapSet := List DictionaryKey

/-- Receiver identifier: `(StageId, ActorName, Id)`.  The registry code calls
the numeric component `RcvrId`; the mapper calls it `Id`; both are this `Id`
field.  `Id = 0` is the detached receiver. -/
structure RcvrId where
  StageId : Nat
  ActorName : String
  Id : Nat
deriving DecidableEq, Repr

/-- The caller's `regVal` built from a receiver id
(`regVal{StageId: id.StageId, RcvrId: id.RcvrId}`). -/
def callerVal (id : RcvrId) : regVal :=
  ⟨id.StageId, id.Id⟩

/-- The registry's per-actor data keyspace
(`/theatre/<ActorName>/<Dict>/<Key>`): one optional `regVal` per key.  The
actor name is fixed for a call, so keys are identified by the `DictionaryKey`.
A `Get` error (key missing) is `none`. -/
abbrev Store := DictionaryKey → Option regVal

/-- Point update of a store (an etcd write of `v` at key `dk`). -/
def upd (st : Store) (dk : DictionaryKey) (v : regVal) : Store :=
  fun k => if k = dk then some v else st k

/-- Lexicographic comparison of two byte strings (as character lists). -/
def charListLtB : List Char → List Char → Bool
  | [], [] => false
  | [], _ :: _ => true
  | _ :: _, [] => false
  | a :: as, b :: bs =>
    if a.toNat < b.toNat then true
    else if b.toNat < a.toNat then false
    else charListLtB as bs

/-- Strict lexicographic order on strings. -/
def strLtB (a b : String) : Bool := charListLtB a.data b.data

/-- Lexicographic order on `(Dict, Key)` used by `sort.Sort(ms)`
(spec §3: "Equality and ordering are lexicographic on the pair"). -/
def dkLe (a b : DictionaryKey) : Bool :=
  strLtB a.Dict b.Dict || (a.Dict == b.Dict && (strLtB a.Key b.Key || a.Key == b.Key))

/-- Insertion step of the canonical sort of a `MapSet`. -/
def insertDK (a : DictionaryKey) : List DictionaryKey → List DictionaryKey
  | [] => [a]
  | b :: l => if dkLe a b then a :: b :: l else b :: insertDK a l

/-- `sort.Sort(ms)`: canonical sorted order of a `MapSet`. -/
def sortMS : List DictionaryKey → List DictionaryKey
  | [] => []
  | a :: l => insertDK a (sortMS l)

/-- The first loop of `registery.storeOrGet` (lines 130-150): walk the sorted
keys; a missing key is skipped; a value equal to the current `v` is skipped; a
different value is adopted once (`validate` is then set) and a second different
value hits `glog.Fatalf` (modelled as `none`: the process exits). -/
def readPhase (st : Store) : regVal → Bool → List DictionaryKey → Option regVal
  | v, _, [] => some v
  | v, validate, dk :: rest =>
    match st dk with
    | none => readPhase st v validate rest
    | some resV =>
      if resV = v then readPhase st v validate rest
      else if validate then none
      else readPhase st resV true rest

/-- One `g.Create(k, mv, ttl)`: etcd `Create` fails if the key exists, so an
existing key is left unchanged and a missing key receives `v`. -/
def create1 (st : Store) (dk : DictionaryKey) (v : regVal) : Store :=
  match st dk with
  | none => upd st dk v
  | some _ => st

/-- The second loop of `registery.storeOrGet` (lines 152-155): `Create` every
key of the (sorted) map set with the result value, ignoring errors. -/
def createAll (v : regVal) : List DictionaryKey → Store → Store
  | [], st => st
  | dk :: rest, st => createAll v rest (create1 st dk v)

/-- `registery.storeOrGet(id, ms)` (lines 118-158), store-passing form.
Returns `none` when the run hits the `glog.Fatalf` inconsistency branch
(the process exits and nothing is returned or written). -/
def storeOrGet (id : RcvrId) (ms : MapSet) (st : Store) : Option (regVal × Store) :=
  match readPhase st (callerVal id) false (sortMS ms) with
  | none => none
  | some v => some (v, createAll v (sortMS ms) st)

/-- Instrumented run of `storeOrGet` recording the lock discipline. -/
structure SGExec where
  result : Option regVal
  store : Store
  lockAcquired : Bool
  unlockCalled : Bool
deriving Inhabited

/-- `registery.storeOrGet` with the actor-lock events made explicit.
`lockErr` is the outcome of the `g.lockActor(id)` call on line 119 (its loop
either creates the `__lock__` key or returns a `Watch` transport error); the
source IGNORES this error and proceeds to read.  `defer g.unlockActor(id)`
runs exactly on the paths where `storeOrGet` returns; on the inconsistency
branch `glog.Fatalf` calls `os.Exit(255)` and deferred calls do not run. -/
def storeOrGetEv (lockErr : Option String) (id : RcvrId) (ms : MapSet) (st : Store) : SGExec :=
  match readPhase st (callerVal id) false (sortMS ms) with
  | none => ⟨none, st, lockErr.isNone, false⟩
  | some v => ⟨some v, createAll v (sortMS ms) st, lockErr.isNone, true⟩

/-- Write of the whole map set used by `registery.set`. -/
def setAll (v : regVal) : List DictionaryKey → Store → Store
  | [], st => st
  | dk :: rest, st => setAll v rest (upd st dk v)

/-- Modelled from the spec: `registery.set` is called by the mapper
(`mapr.ctx.stage.registery.set`) but its body is not in the source excerpt.
Spec §4.1: "set(rcvrId, mapSet) → RegVal: force variant used only by
migration.  Writes the caller's RegVal to every key unconditionally; returns
the caller's RegVal." -/
def regSet (id : RcvrId) (ms : MapSet) (st : Store) : regVal × Store :=
  (callerVal id, setAll (callerVal id) ms st)

/-! ## Mapper (src/registery.go, part 2)

Receiver objects (`localRcvr`/`proxyRcvr` pointers) are modelled as opaque
tokens: natural numbers drawn from an allocation counter `nextTok`.  Pointer
equality of receiver interface values (`dkRecvr == rcvr`) is token equality.
`rid tok` is the receiver object's `rId` field and `isProxyTok tok` its
variant (true for `proxyRcvr`). -/

/-- `mapper.keyToRcvrs`: a Go map from dictionary key to receiver object,
modelled as an association list with no duplicate keys (assignment replaces). -/
abbrev KeyMap := List (DictionaryKey × Nat)

/-- Map lookup `mapr.keyToRcvrs[dk]`. -/
def kget : KeyMap → DictionaryKey → Option Nat
  | [], _ => none
  | (k, r) :: rest, dk => if k = dk then some r else kget rest dk

/-- Remove all entries for a key (helper for map assignment). -/
def kerase : KeyMap → DictionaryKey → KeyMap
  | [], _ => []
  | (k, r) :: rest, dk => if k = dk then kerase rest dk else (k, r) :: kerase rest dk

/-- Map assignment `mapr.keyToRcvrs[dk] = rcvr`. -/
def kset (l : KeyMap) (dk : DictionaryKey) (r : Nat) : KeyMap :=
  (dk, r) :: kerase l dk

/-- Per-mapper static context: the hosting stage id and actor name
(`mapr.ctx.stage.Id()`, `mapr.ctx.actor.Name()`), and whether the stage is in
isolated mode (`mapr.ctx.stage.isIsol()`; spec: "single-node configuration
that bypasses the registry"). -/
structure MapperCfg where
  stageId : Nat
  actorName : String
  isIsol : Bool

/-- Mutable mapper state: the `lastRId` counter (uint32), the receiver-object
allocator (`nextTok`, with `rid`/`isProxyTok` describing allocated objects),
the two indices `idToRcvrs` and `keyToRcvrs`, and the registry store the
mapper's registry calls act on. -/
structure MapperState where
  lastRId : Nat
  nextTok : Nat
  rid : Nat → RcvrId
  isProxyTok : Nat → Bool
  idToRcvrs : RcvrId → Option Nat
  keyToRcvrs : KeyMap
  store : Store

/-- 2^32: `lastRId` is a Go `uint32`. -/
def u32 : Nat := 4294967296

/-- `mapper.nextRcvrId` (lines 362-369): increment `lastRId` (uint32
arithmetic) and build the fresh local id. -/
def nextRcvrId (cfg : MapperCfg) (m : MapperState) : RcvrId × MapperState :=
  let last := (m.lastRId + 1) % u32
  (⟨cfg.stageId, cfg.actorName, last⟩, { m with lastRId := last })

/-- `mapper.lock(mapSet, force)` (lines 373-394): allocate a tentative id;
in isolated mode keep it; otherwise call `registery.set` (force) or
`registery.storeOrGet`; keep the tentative id if the registry echoed it, else
rewind the counter and return the foreign owner.  `none` is the registry's
fatal inconsistency branch. -/
def lock (cfg : MapperCfg) (m : MapperState) (ms : MapSet) (force : Bool) :
    Option (RcvrId × MapperState) :=
  let step := nextRcvrId cfg m
  let id := step.1
  let m1 := step.2
  if cfg.isIsol then some (id, m1)
  else
    match (if force then some (regSet id ms m1.store) else storeOrGet id ms m1.store) with
    | none => none
    | some (v, st1) =>
      let m2 := { m1 with store := st1 }
      if v.StageId = id.StageId ∧ v.RcvrId = id.Id then some (id, m2)
      else
        some (⟨v.StageId, id.ActorName, v.RcvrId⟩,
              { m2 with lastRId := (m2.lastRId + u32 - 1) % u32 })

/-- `mapper.setReceiver` (lines 298-300). -/
def setReceiver (m : MapperState) (dk : DictionaryKey) (rcvr : Nat) : MapperState :=
  { m with keyToRcvrs := kset m.keyToRcvrs dk rcvr }

/-- `mapper.lockKey(dk, rcvr)` (lines 396-405): bind the key locally, and
unless isolated also claim it in the registry (result ignored; the store still
changes because missing keys are created).  `none` is a registry fatal. -/
def lockKey (cfg : MapperCfg) (m : MapperState) (dk : DictionaryKey) (rcvr : Nat) :
    Option MapperState :=
  let m1 := setReceiver m dk rcvr
  if cfg.isIsol then some m1
  else
    match storeOrGet (m1.rid rcvr) [dk] m1.store with
    | none => none
    | some (_, st1) => some { m1 with store := st1 }

/-- `mapper.syncReceivers(ms, rcvr)` (lines 302-317): every key must be
unbound (then `lockKey` binds it) or bound to the same receiver object;
a different receiver hits `glog.Fatalf` (`none`). -/
def syncReceivers (cfg : MapperCfg) (rcvr : Nat) :
    List DictionaryKey → MapperState → Option MapperState
  | [], m => some m
  | dk :: rest, m =>
    match kget m.keyToRcvrs dk with
    | none =>
      match lockKey cfg m dk rcvr with
      | none => none
      | some m1 => syncReceivers cfg rcvr rest m1
    | some r =>
      if r = rcvr then syncReceivers cfg rcvr rest m else none

/-- `mapper.anyReceiver(ms)` (lines 319-328): the receiver of the first bound
key, if any. -/
def anyReceiver (m : MapperState) : List DictionaryKey → Option Nat
  | [] => none
  | dk :: rest =>
    match kget m.keyToRcvrs dk with
    | some r => some r
    | none => anyReceiver m rest

/-- `mapper.isLocalRcvr(id)` (lines 407-409). -/
def isLocalRcvr (cfg : MapperCfg) (id : RcvrId) : Bool :=
  cfg.stageId == id.StageId

/-- `mapper.findOrCreateReceiver(id)` (lines 466-490): return the known
receiver, or allocate a fresh receiver object (local if the id's stage is this
node, else a proxy), install it in `idToRcvrs` and start it. -/
def findOrCreateReceiver (cfg : MapperCfg) (m : MapperState) (id : RcvrId) :
    Nat × MapperState :=
  match m.idToRcvrs id with
  | some r => (r, m)
  | none =>
    let tok := m.nextTok
    (tok,
      { m with
        nextTok := tok + 1
        rid := fun t => if t = tok then id else m.rid t
        isProxyTok := fun t => if t = tok then !(isLocalRcvr cfg id) else m.isProxyTok t
        idToRcvrs := fun i => if i = id then some tok else m.idToRcvrs i })

/-- The `for _, dictKey := range mapSet { mapr.setReceiver(dictKey, rcvr) }`
loops (lines 505-507 and 593-595). -/
def bindAll : MapperState → List DictionaryKey → Nat → MapperState
  | m, [], _ => m
  | m, dk :: rest, tok => bindAll (setReceiver m dk tok) rest tok

/-- `mapper.newReceiverForMapSet(mapSet)` (lines 501-510): lock the map set,
create or fetch the owning receiver, bind every key to it.  (The Go
`sort.Sort` inside the registry call sorts the slice in place; the bound key
SET is unchanged, so binding over the original order yields the same map.) -/
def newReceiverForMapSet (cfg : MapperCfg) (m : MapperState) (ms : MapSet) :
    Option (Nat × MapperState) :=
  match lock cfg m ms false with
  | none => none
  | some (rcvrId, m1) =>
    let fc := findOrCreateReceiver cfg m1 rcvrId
    some (fc.1, bindAll fc.2 ms fc.1)

/-- The keyed (non-unicast) branch of `mapper.handleMsg` (lines 350-359),
taking the map set `mh.handler.Map(mh.msg, ctx)` as input.  The returned token
is the receiver the message is enqueued on (`rcvr.enqueMsg(mh)`); `none` is a
`glog.Fatalf` in `syncReceivers` or in the registry. -/
def handleKeyedMsg (cfg : MapperCfg) (m : MapperState) (ms : MapSet) :
    Option (Nat × MapperState) :=
  match anyReceiver m ms with
  | none => newReceiverForMapSet cfg m ms
  | some rcvr =>
    match syncReceivers cfg rcvr ms m with
    | none => none
    | some m1 => some (rcvr, m1)

/-- `mapper.proxyFromLocal(id, lRcvr)` (lines 422-441): refuse a local target
id or an id that is already installed; otherwise allocate a proxy object for
`id` and install it under BOTH the new id and the old receiver's id. -/
def proxyFromLocal (cfg : MapperCfg) (m : MapperState) (id : RcvrId) (lTok : Nat) :
    Except String (Nat × MapperState) :=
  if isLocalRcvr cfg id then Except.error "Receiver ID is a local ID"
  else
    match m.idToRcvrs id with
    | some _ => Except.error "Rcvr already exists"
    | none =>
      let tok := m.nextTok
      Except.ok (tok,
        { m with
          nextTok := tok + 1
          rid := fun t => if t = tok then id else m.rid t
          isProxyTok := fun t => if t = tok then true else m.isProxyTok t
          idToRcvrs := fun i =>
            if i = id then some tok
            else if i = m.rid lTok then some tok
            else m.idToRcvrs i })

/-- `mapper.mapSetOfRcvr(id)` kernel (lines 512-520): the keys whose bound
receiver object has `rId = id`. -/
def keysOfRcvr (rid : Nat → RcvrId) : KeyMap → RcvrId → MapSet
  | [], _ => []
  | (k, t) :: rest, id =>
    if rid t = id then k :: keysOfRcvr rid rest id else keysOfRcvr rid rest id

/-- `mapper.mapSetOfRcvr(id)` (lines 512-520). -/
def mapSetOfRcvr (m : MapperState) (id : RcvrId) : MapSet :=
  keysOfRcvr m.rid m.keyToRcvrs id

/-- `detachedRcvrId = 0` (line 169). -/
def detachedRcvrIdC : Nat := 0

/-- Modelled from the spec: `RcvrId.isDetachedId` is called on line 523 but
not defined in the source excerpt; the source fixes `detachedRcvrId = 0` and
spec §3 says "`RcvrId = 0` is reserved for the detached receiver". -/
def isDetachedId (id : RcvrId) : Bool :=
  id.Id == detachedRcvrIdC

/-- Outcomes of the external steps of `mapper.migrate`: the synchronous stop
of the old receiver, `dialStage(to)`, the two `gob` encodes, and the decode of
the remote receiver id assigned by the target (`none` = decode error). -/
structure MigrateEnv where
  stopErr : Option String
  dialErr : Option String
  encodeHsErr : Option String
  encodeCmdErr : Option String
  decodeRes : Option RcvrId

/-- `mapper.migrate(rcvrId, to, resCh)` (lines 522-598).  The second component
is the list of values sent on `resCh` (each send is `asyncResult{nil, err}`,
so only the error string is recorded).  The overall `none` is the panic of the
type assertion `oldRcvr.(*localRcvr)` when the found receiver is a proxy
(evaluated on line 580, after stop/dial/encode/decode). -/
def migrate (cfg : MapperCfg) (env : MigrateEnv) (m : MapperState)
    (rcvrId : RcvrId) (_dest : Nat) : Option (MapperState × List String) :=
  if isDetachedId rcvrId then some (m, ["Cannot migrate detached"])
  else
    match m.idToRcvrs rcvrId with
    | none => some (m, ["Receiver not found"])
    | some oldTok =>
      match env.stopErr with
      | some e => some (m, [e])
      | none =>
        match env.dialErr with
        | some e => some (m, [e])
        | none =>
          match env.encodeHsErr with
          | some e => some (m, [e])
          | none =>
            match env.encodeCmdErr with
            | some e => some (m, [e])
            | none =>
              match env.decodeRes with
              | none => some (m, ["Cannot decode the new receiver"])
              | some newId =>
                if m.isProxyTok oldTok then none
                else
                  match proxyFromLocal cfg m newId oldTok with
                  | Except.error e => some (m, [e])
                  | Except.ok (newTok, m1) =>
                    let ms := mapSetOfRcvr m1 (m1.rid oldTok)
                    let s := regSet (m1.rid newTok) ms m1.store
                    some (bindAll { m1 with store := s.2 } ms newTok, [])

/-! ## RPC layer (src/registery.go, part 3) -/

/-- `minWait = 50 * time.Millisecond`, in nanoseconds. -/
def minWaitNs : Nat := 50000000

/-- `maxWait = 8 * time.Second`, in nanoseconds. -/
def maxWaitNs : Nat := 8000000000

/-- `1 * time.Second`, in nanoseconds. -/
def oneSecondNs : Nat := 1000000000

/-- `rpcBackoffError` (lines 626-635). -/
structure rpcBackoffError where
  Until : Nat
deriving DecidableEq, Repr

/-- `func (e *rpcBackoffError) Temporary() bool { return true }`. -/
def rpcBackoffErrorTemporary (_e : rpcBackoffError) : Bool := true

/-- `func (e *rpcBackoffError) Timeout() bool { return true }`. -/
def rpcBackoffErrorTimeout (_e : rpcBackoffError) : Bool := true

/-- Errors `rpcClientPool.newClient` can return. -/
inductive RpcErr where
  | backoff (e : rpcBackoffError)
  | regErr (e : String)
  | dialErr (e : String)
deriving DecidableEq, Repr

/-- `dialTry` per-peer retry state (lines 642-647); times are nanoseconds.
The zero value of `time.Time`/`uint64` is 0; `lookupRetry` initialises
`wait = minWait`. -/
structure dialTry where
  next : Nat
  wait : Nat
  tries : Nat
deriving DecidableEq, Repr

/-- The `dialTry` created by `lookupRetry` on first use: `&dialTry{wait: minWait}`. -/
def freshDialTry : dialTry :=
  ⟨0, minWaitNs, 0⟩

/-- Result of one `rpcClientPool.newClient` call. -/
structure NewClientRes where
  client : Option Nat
  err : Option RpcErr
  dialed : Bool
  t : dialTry
deriving DecidableEq, Repr

/-- `rpcClientPool.newClient(hive)` (lines 812-851).  `cached` is the outcome
of the second `lookupHive` check, `reg` the registry address lookup, `dialOk`
whether `newRPCClient` succeeds, `now` the current time and `t` the peer's
retry state.  Before `t.next` (gate `!now.After(t.next)`) the call returns a
`rpcBackoffError` without dialing; a failed dial doubles `wait` (capped at
`maxWait`) and pushes `next`; a successful dial resets `wait` to 1s and `next`
to `now`. -/
def newClient (cached : Option Nat) (reg : Except String String) (dialOk : Bool)
    (now : Nat) (t : dialTry) : NewClientRes :=
  match cached with
  | some c => ⟨some c, none, false, t⟩
  | none =>
    if ¬ (t.next < now) then ⟨none, some (RpcErr.backoff ⟨t.next⟩), false, t⟩
    else
      match reg with
      | Except.error e => ⟨none, some (RpcErr.regErr e), false, t⟩
      | Except.ok _addr =>
        if dialOk then
          ⟨some 0, none, true, { t with wait := oneSecondNs, next := now }⟩
        else
          let w := t.wait * 2
          let w := if w > maxWaitNs then maxWaitNs else w
          ⟨none, some (RpcErr.dialErr "dial failed"), true,
            { t with tries := t.tries + 1, wait := w, next := now + w }⟩

/-- Fold a sequence of client-creation attempts, each at the given time, with
the registry lookup succeeding and every dial failing. -/
def dialFailSeq : List Nat → dialTry → dialTry
  | [], t => t
  | n :: rest, t => dialFailSeq rest (newClient none (Except.ok "") false n t).t

/-- Every attempt in the sequence passes the backoff gate, i.e. is an actual
(failed) dial. -/
def dialFailGatedB : List Nat → dialTry → Bool
  | [], _ => true
  | n :: rest, t =>
    t.next < n && dialFailGatedB rest (newClient none (Except.ok "") false n t).t

/-- Last element of a list of attempt times (0 for the empty list). -/
def lastTime : List Nat → Nat
  | [] => 0
  | [n] => n
  | _ :: b :: rest => lastTime (b :: rest)

/-- A raft message; `hasSnapshot` is `!etcdraft.IsEmptySnap(msg.Snapshot)`. -/
structure RaftMsg where
  hasSnapshot : Bool
deriving DecidableEq, Repr

/-- `raft.Batch`: destination hive, priority flag, and the per-group message
lists (`batch.Messages` is a Go map; modelled as an association list). -/
structure Batch where
  To : Nat
  Priority : Bool
  Messages : List (Nat × List RaftMsg)

/-- `etcdraft.SnapshotStatus`. -/
inductive SnapStatus where
  | finish
  | failure
deriving DecidableEq, Repr

/-- Calls made on the consensus `raft.Reporter`. -/
inductive ReportEvent where
  | unreachable (toH g : Nat)
  | snapshot (toH g : Nat) (status : SnapStatus)
deriving DecidableEq, Repr

/-- `snapStatus(err)` (lines 937-944). -/
def snapStatusM (err : Option String) : SnapStatus :=
  if err.isSome then SnapStatus.failure else SnapStatus.finish

/-- The inner message loop of `report` for one group. -/
def snapEvents (err : Option String) (toH g : Nat) : List RaftMsg → List ReportEvent
  | [] => []
  | msg :: rest =>
    (if msg.hasSnapshot then [ReportEvent.snapshot toH g (snapStatusM err)] else [])
      ++ snapEvents err toH g rest

/-- `report(err, batch, r)` (lines 950-962): per group, `ReportUnreachable`
when `err != nil`, then `ReportSnapshot` for every message with a non-empty
snapshot. -/
def reportEvents (err : Option String) (toH : Nat) :
    List (Nat × List RaftMsg) → List ReportEvent
  | [] => []
  | (g, msgs) :: rest =>
    (if err.isSome then [ReportEvent.unreachable toH g] else [])
      ++ snapEvents err toH g msgs
      ++ reportEvents err toH rest

/-- `rpcClientPool.sendRaft(batch, r)` (lines 699-710): if obtaining the hive
client fails (`clientErr`, which includes a `BackoffError`), `report` fires
with that error and the error is returned; otherwise `rpcClient.sendRaft`
makes the call (outcome `sendErr`) and itself ends in `report` (line 972).
Returns the reporter events and the function's error result. -/
def poolSendRaft (clientErr sendErr : Option String) (b : Batch) :
    List ReportEvent × Option String :=
  match clientErr with
  | some e => (reportEvents (some e) b.To b.Messages, some e)
  | none => (reportEvents sendErr b.To b.Messages, sendErr)

/-- Count of `ReportUnreachable(to, g)` calls among the events. -/
def unreachCount (toH g : Nat) : List ReportEvent → Nat
  | [] => 0
  | ReportEvent.unreachable t gg :: rest =>
    (if t = toH ∧ gg = g then 1 else 0) + unreachCount toH g rest
  | ReportEvent.snapshot _ _ _ :: rest => unreachCount toH g rest

/-- Count of `ReportSnapshot(_, _, SnapshotFailure)` calls. -/
def snapFailCount : List ReportEvent → Nat
  | [] => 0
  | ReportEvent.snapshot _ _ SnapStatus.failure :: rest => 1 + snapFailCount rest
  | _ :: rest => snapFailCount rest

/-- Count of `ReportSnapshot(_, _, SnapshotFinish)` calls. -/
def snapFinCount : List ReportEvent → Nat
  | [] => 0
  | ReportEvent.snapshot _ _ SnapStatus.finish :: rest => 1 + snapFinCount rest
  | _ :: rest => snapFinCount rest

/-- Occurrences of group `g` in a batch's message groups. -/
def groupOcc (g : Nat) : List (Nat × List RaftMsg) → Nat
  | [] => 0
  | (gg, _) :: rest => (if gg = g then 1 else 0) + groupOcc g rest

/-- Messages with a non-empty snapshot in one group. -/
def snapCountMsgs : List RaftMsg → Nat
  | [] => 0
  | msg :: rest => (if msg.hasSnapshot then 1 else 0) + snapCountMsgs rest

/-- Messages with a non-empty snapshot in the whole batch. -/
def snapCount : List (Nat × List RaftMsg) → Nat
  | [] => 0
  | (_, msgs) :: rest => snapCountMsgs msgs + snapCount rest

/-- A command as received by `rpcServer.ProcessCmd` (`Nil` hive/bee ids are
the zero value 0). -/
structure Cmd where
  Hive : Nat
  App : String
  Bee : Nat
deriving DecidableEq, Repr

/-- `cmdResult`: data or error.  The zero value (both `nil`) is what an
untouched result slot holds. -/
structure CmdResult where
  Data : Option String
  Err : Option String
deriving DecidableEq, Repr

/-- The zero `cmdResult`. -/
def cmdResultZero : CmdResult := ⟨none, none⟩

/-- The server's environment: its hive id, which apps and bees exist, and the
reply the addressed control channel eventually produces for a dispatched
command. -/
structure ServerEnv where
  hiveId : Nat
  hasApp : String → Bool
  hasBee : String → Nat → Bool
  handle : Cmd → CmdResult

/-- The value command `c` delivers on its result channel: the dispatch loop of
`ProcessCmd` (lines 1024-1068) sends a wrong-hive / unknown-app / unknown-bee
error to the command's own channel, or hands the command to the hive, app or
bee control channel, whose reply (`env.handle c`) arrives on that channel. -/
def dispatchResult (env : ServerEnv) (c : Cmd) : CmdResult :=
  if c.Hive ≠ 0 ∧ c.Hive ≠ env.hiveId then ⟨none, some "rpc-server: command to another hive"⟩
  else if c.App = "" then env.handle c
  else if ¬ env.hasApp c.App then ⟨none, some "rpc-server: cannot find app"⟩
  else if c.Bee = 0 then env.handle c
  else if ¬ env.hasBee c.App c.Bee then ⟨none, some "rpc-server: cannot find bee"⟩
  else env.handle c

/-- `rpcServer.ProcessCmd(cmds, res)` (lines 1016-1087): the final contents of
`*res`.  An empty batch returns early.  Otherwise `*res` is allocated with one
zero slot per command; the collection loop (lines 1070-1084) receives the
FIRST command's result and then executes `return nil`, so only slot 0 is ever
filled. -/
def processCmd (env : ServerEnv) (cmds : List Cmd) : List CmdResult :=
  match cmds with
  | [] => []
  | c0 :: _ =>
    (List.replicate cmds.length cmdResultZero).set 0 (dispatchResult env c0)

/-! ## Concrete inputs used by witnesses and counterexamples -/

/-- Empty registry store. -/
def emptyStore : Store := fun _ => none

/-- C1 witness input: caller id. -/
def w1id : RcvrId := ⟨5, "ba", 3⟩

/-- C1 witness input: the single claimed key. -/
def w1k : DictionaryKey := ⟨"d", "a"⟩

/-- C1 witness output store. -/
def w1out : Store := createAll (callerVal w1id) (sortMS [w1k]) emptyStore

/-- C2 counterexample store: the first key (in canonical order) holds a
foreign value, the second holds the caller's own value. -/
def x2st : Store := fun k =>
  if k = ⟨"d", "a"⟩ then some ⟨2, 5⟩
  else if k = ⟨"d", "b"⟩ then some ⟨1, 1⟩ else none

/-- C6 counterexample store: two distinct foreign owners (a genuinely
inconsistent map set, taking the fatal branch). -/
def x6st : Store := fun k =>
  if k = ⟨"e", "a"⟩ then some ⟨4, 1⟩
  else if k = ⟨"e", "b"⟩ then some ⟨5, 1⟩ else none

/-- C3 witness: isolated single-node configuration. -/
def w3cfg : MapperCfg := ⟨1, "a", true⟩

/-- C3 witness state: two keys already bound to two distinct receivers. -/
def w3m : MapperState :=
  ⟨0, 2, fun _ => ⟨1, "a", 0⟩, fun _ => false, fun _ => none,
    [(⟨"d", "a"⟩, 0), (⟨"d", "b"⟩, 1)], emptyStore⟩

/-- C4 witness: isolated configuration. -/
def w4cfg : MapperCfg := ⟨1, "a", true⟩

/-- C4 witness state with `lastRId = 5`. -/
def w4m : MapperState :=
  ⟨5, 0, fun _ => ⟨1, "a", 0⟩, fun _ => false, fun _ => none, [], emptyStore⟩

/-- C4 witness: the state after a winning `lock`. -/
def w4m' : MapperState := { w4m with lastRId := 6 }

/-- C5 witness: the local receiver id being migrated. -/
def w5rid : RcvrId := ⟨1, "a", 5⟩

/-- C5 witness configuration. -/
def w5cfg : MapperCfg := ⟨1, "a", false⟩

/-- C5 witness state: receiver object 0 is the local receiver `w5rid`,
bound to one dictionary key. -/
def w5m : MapperState :=
  ⟨7, 1, fun t => if t = 0 then w5rid else ⟨0, "", 0⟩, fun _ => false,
    fun i => if i = w5rid then some 0 else none, [(⟨"d", "a"⟩, 0)], emptyStore⟩

/-- C5 witness: every external migration step succeeds; the target assigns
remote id `(2, "a", 9)`. -/
def w5env : MigrateEnv := ⟨none, none, none, none, some ⟨2, "a", 9⟩⟩

/-- C5 witness: the state/sends pair the successful migration produces. -/
def w5res : MapperState × List String :=
  (migrate w5cfg w5env w5m w5rid 2).getD (w5m, ["unreachable"])

/-- C10 witness: the receiver id being migrated. -/
def w10rid : RcvrId := ⟨1, "a", 4⟩

/-- C10 witness state: the receiver exists locally. -/
def w10m : MapperState :=
  ⟨0, 1, fun _ => w10rid, fun _ => false,
    fun i => if i = w10rid then some 0 else none, [], emptyStore⟩

/-- C10 witness: stopping the old receiver fails. -/
def w10env : MigrateEnv := ⟨some "stop failed", none, none, none, none⟩

/-- C10 witness configuration. -/
def w10cfg : MapperCfg := ⟨1, "a", false⟩

/-- C9 failing-input server: hive id 1, no apps, no bees. -/
def x9env : ServerEnv := ⟨1, fun _ => false, fun _ _ => false, fun _ => ⟨some "ok", none⟩⟩

/-- C9 failing-input command: addressed to hive 9 (not this hive, not Nil). -/
def x9c : Cmd := ⟨9, "", 0⟩

/-! ## Lemmas about the canonical sort -/

theorem mem_insertDK (a x : DictionaryKey) (l : List DictionaryKey) :
    x ∈ insertDK a l ↔ x = a ∨ x ∈ l := by
  induction l with
  | nil => simp [insertDK]
  | cons b l ih =>
    cases hab : dkLe a b with
    | true => simp [insertDK, hab, List.mem_cons]
    | false =>
      simp only [insertDK, hab, Bool.false_eq_true, if_false, List.mem_cons, ih]
      tauto

theorem mem_sortMS (x : DictionaryKey) (l : List DictionaryKey) :
    x ∈ sortMS l ↔ x ∈ l := by
  induction l with
  | nil => simp [sortMS]
  | cons a l ih => simp [sortMS, mem_insertDK, ih]

/-! ## Step equations for the read loop of `storeOrGet` -/

theorem readPhase_nil (st : Store) (v : regVal) (b : Bool) :
    readPhase st v b [] = some v := rfl

theorem readPhase_cons_none (st : Store) (v : regVal) (b : Bool)
    (d : DictionaryKey) (rest : List DictionaryKey) (hd : st d = none) :
    readPhase st v b (d :: rest) = readPhase st v b rest := by
  simp [readPhase, hd]

theorem readPhase_cons_eq (st : Store) (v : regVal) (b : Bool)
    (d : DictionaryKey) (rest : List DictionaryKey) (hd : st d = some v) :
    readPhase st v b (d :: rest) = readPhase st v b rest := by
  simp [readPhase, hd]

theorem readPhase_cons_adopt (st : Store) (v w : regVal)
    (d : DictionaryKey) (rest : List DictionaryKey) (hd : st d = some w)
    (hw : w ≠ v) :
    readPhase st v false (d :: rest) = readPhase st w true rest := by
  simp [readPhase, hd, hw]

theorem readPhase_cons_fatal (st : Store) (v w : regVal)
    (d : DictionaryKey) (rest : List DictionaryKey) (hd : st d = some w)
    (hw : w ≠ v) :
    readPhase st v true (d :: rest) = none := by
  simp [readPhase, hd, hw]

/-! ## Characterisation of the read loop -/

theorem readPhase_some_true (st : Store) (v r : regVal) (l : List DictionaryKey)
    (h : readPhase st v true l = some r) :
    r = v ∧ ∀ d ∈ l, ∀ w, st d = some w → w = v := by
  induction l with
  | nil =>
    rw [readPhase_nil, Option.some_inj] at h
    subst h
    exact ⟨rfl, by simp⟩
  | cons d rest ih =>
    cases hd : st d with
    | none =>
      rw [readPhase_cons_none st v true d rest hd] at h
      obtain ⟨h1, h2⟩ := ih h
      refine ⟨h1, ?_⟩
      intro d2 hd2 w hw
      rcases List.mem_cons.mp hd2 with rfl | hmem
      · rw [hd] at hw; cases hw
      · exact h2 d2 hmem w hw
    | some w =>
      by_cases hw : w = v
      · subst hw
        rw [readPhase_cons_eq st w true d rest hd] at h
        obtain ⟨h1, h2⟩ := ih h
        refine ⟨h1, ?_⟩
        intro d2 hd2 w2 hw2
        rcases List.mem_cons.mp hd2 with rfl | hmem
        · rw [hd] at hw2; cases hw2; rfl
        · exact h2 d2 hmem w2 hw2
      · rw [readPhase_cons_fatal st v w d rest hd hw] at h
        cases h

theorem readPhase_some_false (st : Store) (v r : regVal) (l : List DictionaryKey)
    (h : readPhase st v false l = some r) :
    (r = v ∧ ∀ d ∈ l, ∀ w, st d = some w → w = v)
    ∨ (r ≠ v ∧ (∃ d ∈ l, st d = some r)
        ∧ ∀ d ∈ l, ∀ w, st d = some w → w = v ∨ w = r) := by
  induction l with
  | nil =>
    left
    rw [readPhase_nil, Option.some_inj] at h
    subst h
    exact ⟨rfl, by simp⟩
  | cons d rest ih =>
    cases hd : st d with
    | none =>
      rw [readPhase_cons_none st v false d rest hd] at h
      rcases ih h with ⟨h1, h2⟩ | ⟨h1, ⟨d2, hd2, hv2⟩, h3⟩
      · left
        refine ⟨h1, ?_⟩
        intro d2 hd2 w hw
        rcases List.mem_cons.mp hd2 with rfl | hmem
        · rw [hd] at hw; cases hw
        · exact h2 d2 hmem w hw
      · right
        refine ⟨h1, ⟨d2, List.mem_cons_of_mem _ hd2, hv2⟩, ?_⟩
        intro d3 hd3 w hw
        rcases List.mem_cons.mp hd3 with rfl | hmem
        · rw [hd] at hw; cases hw
        · exact h3 d3 hmem w hw
    | some w =>
      by_cases hw : w = v
      · subst hw
        rw [readPhase_cons_eq st w false d rest hd] at h
        rcases ih h with ⟨h1, h2⟩ | ⟨h1, ⟨d2, hd2, hv2⟩, h3⟩
        · left
          refine ⟨h1, ?_⟩
          intro d2 hd2 w2 hw2
          rcases List.mem_cons.mp hd2 with rfl | hmem
          · rw [hd] at hw2; cases hw2; rfl
          · exact h2 d2 hmem w2 hw2
        · right
          refine ⟨h1, ⟨d2, List.mem_cons_of_mem _ hd2, hv2⟩, ?_⟩
          intro d3 hd3 w2 hw2
          rcases List.mem_cons.mp hd3 with rfl | hmem
          · rw [hd] at hw2; cases hw2; exact Or.inl rfl
          · exact h3 d3 hmem w2 hw2
      · rw [readPhase_cons_adopt st v w d rest hd hw] at h
        obtain ⟨h1, h2⟩ := readPhase_some_true st w r rest h
        subst h1
        right
        refine ⟨hw, ⟨d, List.mem_cons_self _ _, hd⟩, ?_⟩
        intro d3 hd3 w2 hw2
        rcases List.mem_cons.mp hd3 with rfl | hmem
        · rw [hd] at hw2; cases hw2; exact Or.inr rfl
        · exact Or.inr (h2 d3 hmem w2 hw2)

theorem readPhase_none_true (st : Store) (v : regVal) (l : List DictionaryKey) :
    readPhase st v true l = none ↔ ∃ d ∈ l, ∃ w, st d = some w ∧ w ≠ v := by
  induction l with
  | nil => simp [readPhase_nil]
  | cons d rest ih =>
    cases hd : st d with
    | none =>
      rw [readPhase_cons_none st v true d rest hd, ih]
      constructor
      · rintro ⟨d2, hd2, w, hw, hne⟩
        exact ⟨d2, List.mem_cons_of_mem _ hd2, w, hw, hne⟩
      · rintro ⟨d2, hd2, w, hw, hne⟩
        rcases List.mem_cons.mp hd2 with rfl | hmem
        · rw [hd] at hw; cases hw
        · exact ⟨d2, hmem, w, hw, hne⟩
    | some w =>
      by_cases hw : w = v
      · subst hw
        rw [readPhase_cons_eq st w true d rest hd, ih]
        constructor
        · rintro ⟨d2, hd2, w2, hw2, hne⟩
          exact ⟨d2, List.mem_cons_of_mem _ hd2, w2, hw2, hne⟩
        · rintro ⟨d2, hd2, w2, hw2, hne⟩
          rcases List.mem_cons.mp hd2 with rfl | hmem
          · rw [hd] at hw2; cases hw2; exact absurd rfl hne
          · exact ⟨d2, hmem, w2, hw2, hne⟩
      · rw [readPhase_cons_fatal st v w d rest hd hw]
        constructor
        · intro _
          exact ⟨d, List.mem_cons_self _ _, w, hd, hw⟩
        · intro _
          rfl

theorem readPhase_none_false (st : Store) (v : regVal) (l : List DictionaryKey) :
    readPhase st v false l = none ↔
      ∃ l1 d l2, l = l1 ++ d :: l2
        ∧ (∀ d1 ∈ l1, ∀ w, st d1 = some w → w = v)
        ∧ ∃ f, st d = some f ∧ f ≠ v
          ∧ ∃ d2 ∈ l2, ∃ w2, st d2 = some w2 ∧ w2 ≠ f := by
  induction l with
  | nil =>
    rw [readPhase_nil]
    constructor
    · intro h; cases h
    · rintro ⟨l1, d, l2, habs, -⟩
      exact absurd habs (by simp)
  | cons d rest ih =>
    cases hd : st d with
    | none =>
      rw [readPhase_cons_none st v false d rest hd, ih]
      constructor
      · rintro ⟨l1, dd, l2, heq, h1, f, hf, hne, d2, hd2, w2, hw2, hne2⟩
        refine ⟨d :: l1, dd, l2, by rw [heq, List.cons_append], ?_,
          f, hf, hne, d2, hd2, w2, hw2, hne2⟩
        intro d1 hd1 w hw
        rcases List.mem_cons.mp hd1 with rfl | hmem
        · rw [hd] at hw; cases hw
        · exact h1 d1 hmem w hw
      · rintro ⟨l1, dd, l2, heq, h1, f, hf, hne, d2, hd2, w2, hw2, hne2⟩
        cases l1 with
        | nil =>
          simp only [List.nil_append] at heq
          cases heq
          rw [hd] at hf; cases hf
        | cons a l1' =>
          simp only [List.cons_append, List.cons.injEq] at heq
          obtain ⟨rfl, heq⟩ := heq
          refine ⟨l1', dd, l2, heq, ?_, f, hf, hne, d2, hd2, w2, hw2, hne2⟩
          intro d1 hd1 w hw
          exact h1 d1 (List.mem_cons_of_mem _ hd1) w hw
    | some w =>
      by_cases hw : w = v
      · subst hw
        rw [readPhase_cons_eq st w false d rest hd, ih]
        constructor
        · rintro ⟨l1, dd, l2, heq, h1, f, hf, hne, d2, hd2, w2, hw2, hne2⟩
          refine ⟨d :: l1, dd, l2, by rw [heq, List.cons_append], ?_,
            f, hf, hne, d2, hd2, w2, hw2, hne2⟩
          intro d1 hd1 w1 hw1
          rcases List.mem_cons.mp hd1 with rfl | hmem
          · rw [hd] at hw1; cases hw1; rfl
          · exact h1 d1 hmem w1 hw1
        · rintro ⟨l1, dd, l2, heq, h1, f, hf, hne, d2, hd2, w2, hw2, hne2⟩
          cases l1 with
          | nil =>
            simp only [List.nil_append] at heq
            cases heq
            rw [hd] at hf
            cases hf
            exact absurd rfl hne
          | cons a l1' =>
            simp only [List.cons_append, List.cons.injEq] at heq
            obtain ⟨rfl, heq⟩ := heq
            refine ⟨l1', dd, l2, heq, ?_, f, hf, hne, d2, hd2, w2, hw2, hne2⟩
            intro d1 hd1 w1 hw1
            exact h1 d1 (List.mem_cons_of_mem _ hd1) w1 hw1
      · rw [readPhase_cons_adopt st v w d rest hd hw, readPhase_none_true]
        constructor
        · rintro ⟨d2, hd2, w2, hw2, hne2⟩
          exact ⟨[], d, rest, rfl, by simp, w, hd, hw, d2, hd2, w2, hw2, hne2⟩
        · rintro ⟨l1, dd, l2, heq, h1, f, hf, hne, d2, hd2, w2, hw2, hne2⟩
          cases l1 with
          | nil =>
            simp only [List.nil_append] at heq
            cases heq
            rw [hd] at hf
            cases hf
            exact ⟨d2, hd2, w2, hw2, hne2⟩
          | cons a l1' =>
            simp only [List.cons_append, List.cons.injEq] at heq
            obtain ⟨rfl, heq⟩ := heq
            exact absurd (h1 d (List.mem_cons_self _ _) w hd) hw

/-! ## Lemmas about the create loop -/

theorem create1_preserve (st : Store) (dk k : DictionaryKey) (v w : regVal)
    (h : st k = some w) : create1 st dk v k = some w := by
  unfold create1
  cases hdk : st dk with
  | none =>
    unfold upd
    by_cases hk : k = dk
    · subst hk; rw [h] at hdk; cases hdk
    · simp [hk, h]
  | some _ => exact h

theorem create1_none (st : Store) (dk k : DictionaryKey) (v : regVal)
    (hk : k ≠ dk) (h : st k = none) : create1 st dk v k = none := by
  unfold create1
  cases hdk : st dk with
  | none => unfold upd; simp [hk, h]
  | some _ => exact h

theorem create1_self (st : Store) (dk : DictionaryKey) (v : regVal)
    (h : st dk = none) : create1 st dk v dk = some v := by
  unfold create1
  rw [h]
  unfold upd
  simp

theorem createAll_preserve (v : regVal) (l : List DictionaryKey) (st : Store)
    (k : DictionaryKey) (w : regVal) (h : st k = some w) :
    createAll v l st k = some w := by
  induction l generalizing st with
  | nil => exact h
  | cons d rest ih => exact ih _ (create1_preserve st d k v w h)

theorem createAll_mem_none (v : regVal) (l : List DictionaryKey) (st : Store)
    (k : DictionaryKey) (hk : k ∈ l) (h : st k = none) :
    createAll v l st k = some v := by
  induction l generalizing st with
  | nil => cases hk
  | cons d rest ih =>
    by_cases hkd : k = d
    · subst hkd
      exact createAll_preserve v rest _ k v (create1_self st k v h)
    · rcases List.mem_cons.mp hk with rfl | hmem
      · exact absurd rfl hkd
      · exact ih _ hmem (create1_none st d k v hkd h)

/-! ## C1, C2, C6 -/

/-- C1: for every non-aborting run of `storeOrGet(id, ms)`, the returned
RegVal is the caller's when no existing key of `ms` holds a different value;
when some key holds a foreign value, the foreign value is returned (it is
held by some key of `ms`, and every existing key holds either it or the
caller's value); every key of `ms` that was absent afterwards holds the
returned value, and existing keys keep their prior value. -/
theorem storeOrGet_contract (id : RcvrId) (ms : MapSet) (st : Store)
    (v : regVal) (st' : Store) (h : storeOrGet id ms st = some (v, st')) :
    ((∀ dk ∈ ms, ∀ w, st dk = some w → w = callerVal id) → v = callerVal id)
    ∧ ((∃ dk ∈ ms, ∃ w, st dk = some w ∧ w ≠ callerVal id) →
        v ≠ callerVal id ∧ (∃ dk ∈ ms, st dk = some v)
        ∧ ∀ dk ∈ ms, ∀ w, st dk = some w → w = callerVal id ∨ w = v)
    ∧ (∀ dk ∈ ms, st dk = none → st' dk = some v)
    ∧ (∀ dk w, st dk = some w → st' dk = some w) := by
  unfold storeOrGet at h
  cases hr : readPhase st (callerVal id) false (sortMS ms) with
  | none => rw [hr] at h; cases h
  | some r =>
    rw [hr] at h
    simp only [Option.some.injEq, Prod.mk.injEq] at h
    obtain ⟨rfl, rfl⟩ := h
    have hchar := readPhase_some_false st (callerVal id) _ (sortMS ms) hr
    refine ⟨?_, ?_, ?_, ?_⟩
    · intro hall
      rcases hchar with ⟨h1, -⟩ | ⟨h1, ⟨d, hd, hv⟩, -⟩
      · exact h1
      · exact absurd (hall d ((mem_sortMS d ms).mp hd) _ hv) h1
    · rintro ⟨dk, hdk, w, hw, hne⟩
      rcases hchar with ⟨h1, h2⟩ | ⟨h1, ⟨d, hd, hv⟩, h3⟩
      · exact absurd (h2 dk ((mem_sortMS dk ms).mpr hdk) w hw) hne
      · refine ⟨h1, ⟨d, (mem_sortMS d ms).mp hd, hv⟩, ?_⟩
        intro dk2 hdk2 w2 hw2
        exact h3 dk2 ((mem_sortMS dk2 ms).mpr hdk2) w2 hw2
    · intro dk hdk hnone
      exact createAll_mem_none _ (sortMS ms) st dk ((mem_sortMS dk ms).mpr hdk) hnone
    · intro dk w hw
      exact createAll_preserve _ (sortMS ms) st dk w hw

/-- C1 witness: a fresh single-key claim on an empty store returns the
caller's value and writes it at the missing key. -/
theorem storeOrGet_contract_witness : w1out w1k = some (callerVal w1id) := by
  have h : storeOrGet w1id [w1k] emptyStore = some (callerVal w1id, w1out) := rfl
  exact (storeOrGet_contract w1id [w1k] emptyStore (callerVal w1id) w1out h).2.2.1
    w1k (List.mem_cons_self _ _) rfl

/-- C2 counterexample: with map set `[("d","a"), ("d","b")]` (already in
canonical order), where `("d","a")` holds the single foreign value `(2,5)`
and `("d","b")` holds the caller's own value `(1,1)`, `storeOrGet` hits the
fatal branch even though the existing values do not contain two distinct
RegVals that both differ from the caller's. -/
theorem storeOrGet_order_sensitive_cex :
    storeOrGet ⟨1, "bc", 1⟩ [⟨"d", "a"⟩, ⟨"d", "b"⟩] x2st = none
    ∧ x2st ⟨"d", "a"⟩ = some ⟨2, 5⟩
    ∧ x2st ⟨"d", "b"⟩ = some ⟨1, 1⟩
    ∧ callerVal ⟨1, "bc", 1⟩ = ⟨1, 1⟩
    ∧ (⟨2, 5⟩ : regVal) ≠ (⟨1, 1⟩ : regVal) := by
  exact ⟨rfl, rfl, rfl, rfl, by decide⟩

/-- C2 (amended): the fatal branch of `storeOrGet(id, ms)` is taken exactly
when, in the canonical (sorted) order of `ms`, every existing key before some
key `d` holds the caller's value, `d` holds a foreign value `f`, and some
existing key after `d` holds a value different from `f` — including the case
where that later value is the caller's own. -/
theorem storeOrGet_fatal_iff (id : RcvrId) (ms : MapSet) (st : Store) :
    storeOrGet id ms st = none ↔
      ∃ l1 d l2, sortMS ms = l1 ++ d :: l2
        ∧ (∀ d1 ∈ l1, ∀ w, st d1 = some w → w = callerVal id)
        ∧ ∃ f, st d = some f ∧ f ≠ callerVal id
          ∧ ∃ d2 ∈ l2, ∃ w2, st d2 = some w2 ∧ w2 ≠ f := by
  rw [← readPhase_none_false]
  cases hr : readPhase st (callerVal id) false (sortMS ms) <;>
    simp [storeOrGet, hr]

/-- C6 counterexample: on a run where the read loop finds two distinct
foreign owners, `storeOrGet` aborts through `glog.Fatalf` (which exits the
process) and the deferred `unlockActor` is never called; moreover when
`lockActor` itself reports an error the call still proceeds to read the keys
without holding the lock. -/
theorem storeOrGet_lock_leak_cex :
    (storeOrGetEv none ⟨3, "bd", 2⟩ [⟨"e", "a"⟩, ⟨"e", "b"⟩] x6st).result = none
    ∧ (storeOrGetEv none ⟨3, "bd", 2⟩ [⟨"e", "a"⟩, ⟨"e", "b"⟩] x6st).unlockCalled = false
    ∧ (storeOrGetEv (some "watch error") ⟨3, "bd", 2⟩ [] x6st).result.isSome = true
    ∧ (storeOrGetEv (some "watch error") ⟨3, "bd", 2⟩ [] x6st).lockAcquired = false := by
  exact ⟨by decide, by decide, by decide, by decide⟩

/-- C6 (amended): `storeOrGet` calls `lockActor` before reading but ignores
its error (the reads proceed, and produce the same result, whether or not the
lock was acquired); the deferred `unlockActor` runs exactly on the paths
where `storeOrGet` returns, and in particular does NOT run on the
inconsistency-fatal path, where `glog.Fatalf` exits the process. -/
theorem storeOrGetEv_lock_discipline (lockErr : Option String) (id : RcvrId)
    (ms : MapSet) (st : Store) :
    ((storeOrGetEv lockErr id ms st).result.isSome
        ↔ (storeOrGetEv lockErr id ms st).unlockCalled = true)
    ∧ (storeOrGetEv lockErr id ms st).lockAcquired = lockErr.isNone
    ∧ (storeOrGetEv lockErr id ms st).result
        = (storeOrGetEv none id ms st).result := by
  unfold storeOrGetEv
  cases hr : readPhase st (callerVal id) false (sortMS ms) <;> simp

/-! ## Lemmas about the mapper's key map -/

theorem kget_kerase (l : KeyMap) (dk dk' : DictionaryKey) (h : dk' ≠ dk) :
    kget (kerase l dk) dk' = kget l dk' := by
  induction l with
  | nil => rfl
  | cons p rest ih =>
    obtain ⟨k, r⟩ := p
    by_cases hk : k = dk
    · subst hk
      rw [kerase, if_pos rfl, ih]
      show kget rest dk' = if k = dk' then some r else kget rest dk'
      rw [if_neg (Ne.symm h)]
    · rw [kerase, if_neg hk]
      show (if k = dk' then some r else kget (kerase rest dk) dk')
          = (if k = dk' then some r else kget rest dk')
      rw [ih]

theorem kget_kset_self (l : KeyMap) (dk : DictionaryKey) (r : Nat) :
    kget (kset l dk r) dk = some r := by
  show (if dk = dk then some r else kget (kerase l dk) dk) = some r
  rw [if_pos rfl]

theorem kget_kset_other (l : KeyMap) (dk dk' : DictionaryKey) (r : Nat)
    (h : dk' ≠ dk) : kget (kset l dk r) dk' = kget l dk' := by
  show (if dk = dk' then some r else kget (kerase l dk) dk') = kget l dk'
  rw [if_neg (Ne.symm h), kget_kerase l dk dk' h]

theorem kget_mem (l : KeyMap) (dk : DictionaryKey) (r : Nat)
    (h : kget l dk = some r) : (dk, r) ∈ l := by
  induction l with
  | nil => cases h
  | cons p rest ih =>
    obtain ⟨k, r0⟩ := p
    by_cases hk : k = dk
    · subst hk
      rw [kget, if_pos rfl, Option.some_inj] at h
      subst h
      exact List.mem_cons_self _ _
    · rw [kget, if_neg hk] at h
      exact List.mem_cons_of_mem _ (ih h)

/-! ## Lemmas about `bindAll` -/

theorem bindAll_fields (m : MapperState) (l : List DictionaryKey) (tok : Nat) :
    (bindAll m l tok).idToRcvrs = m.idToRcvrs
    ∧ (bindAll m l tok).rid = m.rid
    ∧ (bindAll m l tok).isProxyTok = m.isProxyTok
    ∧ (bindAll m l tok).nextTok = m.nextTok
    ∧ (bindAll m l tok).lastRId = m.lastRId := by
  induction l generalizing m with
  | nil => exact ⟨rfl, rfl, rfl, rfl, rfl⟩
  | cons dk rest ih => exact ih _

theorem bindAll_binds (m : MapperState) (l : List DictionaryKey) (tok : Nat)
    (dk : DictionaryKey) (h : dk ∈ l ∨ kget m.keyToRcvrs dk = some tok) :
    kget (bindAll m l tok).keyToRcvrs dk = some tok := by
  induction l generalizing m with
  | nil =>
    rcases h with h | h
    · cases h
    · exact h
  | cons d rest ih =>
    show kget (bindAll (setReceiver m d tok) rest tok).keyToRcvrs dk = some tok
    by_cases hdk : dk = d
    · subst hdk
      refine ih _ (Or.inr ?_)
      show kget (kset m.keyToRcvrs dk tok) dk = some tok
      exact kget_kset_self _ _ _
    · rcases h with h | h
      · rcases List.mem_cons.mp h with rfl | hmem
        · exact absurd rfl hdk
        · exact ih _ (Or.inl hmem)
      · refine ih _ (Or.inr ?_)
        show kget (kset m.keyToRcvrs d tok) dk = some tok
        rw [kget_kset_other _ _ _ _ hdk]
        exact h

/-! ## Step equations for `lockKey`, `syncReceivers`, `handleKeyedMsg` -/

theorem lockKey_isol (cfg : MapperCfg) (m : MapperState) (dk : DictionaryKey)
    (rcvr : Nat) (hiso : cfg.isIsol = true) :
    lockKey cfg m dk rcvr = some (setReceiver m dk rcvr) := by
  simp [lockKey, hiso]

theorem lockKey_reg (cfg : MapperCfg) (m : MapperState) (dk : DictionaryKey)
    (rcvr : Nat) (v : regVal) (st1 : Store) (hiso : cfg.isIsol = false)
    (hsg : storeOrGet ((setReceiver m dk rcvr).rid rcvr) [dk]
        (setReceiver m dk rcvr).store = some (v, st1)) :
    lockKey cfg m dk rcvr = some { setReceiver m dk rcvr with store := st1 } := by
  simp [lockKey, hiso, hsg]

theorem lockKey_fatal (cfg : MapperCfg) (m : MapperState) (dk : DictionaryKey)
    (rcvr : Nat) (hiso : cfg.isIsol = false)
    (hsg : storeOrGet ((setReceiver m dk rcvr).rid rcvr) [dk]
        (setReceiver m dk rcvr).store = none) :
    lockKey cfg m dk rcvr = none := by
  simp [lockKey, hiso, hsg]

theorem lockKey_keyToRcvrs (cfg : MapperCfg) (m : MapperState)
    (dk : DictionaryKey) (rcvr : Nat) (m1 : MapperState)
    (h : lockKey cfg m dk rcvr = some m1) :
    m1.keyToRcvrs = kset m.keyToRcvrs dk rcvr := by
  cases hiso : cfg.isIsol with
  | true =>
    rw [lockKey_isol cfg m dk rcvr hiso, Option.some_inj] at h
    subst h
    rfl
  | false =>
    cases hsg : storeOrGet ((setReceiver m dk rcvr).rid rcvr) [dk]
        (setReceiver m dk rcvr).store with
    | none => rw [lockKey_fatal cfg m dk rcvr hiso hsg] at h; cases h
    | some p =>
      obtain ⟨v, st1⟩ := p
      rw [lockKey_reg cfg m dk rcvr v st1 hiso hsg, Option.some_inj] at h
      subst h
      rfl

theorem sync_nil (cfg : MapperCfg) (rcvr : Nat) (m : MapperState) :
    syncReceivers cfg rcvr [] m = some m := rfl

theorem sync_cons_unbound (cfg : MapperCfg) (rcvr : Nat) (d : DictionaryKey)
    (rest : List DictionaryKey) (m m1 : MapperState)
    (hd : kget m.keyToRcvrs d = none) (hlk : lockKey cfg m d rcvr = some m1) :
    syncReceivers cfg rcvr (d :: rest) m = syncReceivers cfg rcvr rest m1 := by
  simp [syncReceivers, hd, hlk]

theorem sync_cons_unbound_fatal (cfg : MapperCfg) (rcvr : Nat) (d : DictionaryKey)
    (rest : List DictionaryKey) (m : MapperState)
    (hd : kget m.keyToRcvrs d = none) (hlk : lockKey cfg m d rcvr = none) :
    syncReceivers cfg rcvr (d :: rest) m = none := by
  simp [syncReceivers, hd, hlk]

theorem sync_cons_same (cfg : MapperCfg) (rcvr : Nat) (d : DictionaryKey)
    (rest : List DictionaryKey) (m : MapperState)
    (hd : kget m.keyToRcvrs d = some rcvr) :
    syncReceivers cfg rcvr (d :: rest) m = syncReceivers cfg rcvr rest m := by
  simp [syncReceivers, hd]

theorem sync_cons_diff (cfg : MapperCfg) (rcvr r : Nat) (d : DictionaryKey)
    (rest : List DictionaryKey) (m : MapperState)
    (hd : kget m.keyToRcvrs d = some r) (hr : r ≠ rcvr) :
    syncReceivers cfg rcvr (d :: rest) m = none := by
  simp [syncReceivers, hd, hr]

theorem anyReceiver_nil (m : MapperState) : anyReceiver m [] = none := rfl

theorem anyReceiver_cons_none (m : MapperState) (d : DictionaryKey)
    (rest : List DictionaryKey) (hd : kget m.keyToRcvrs d = none) :
    anyReceiver m (d :: rest) = anyReceiver m rest := by
  simp [anyReceiver, hd]

theorem anyReceiver_cons_some (m : MapperState) (d : DictionaryKey)
    (rest : List DictionaryKey) (r : Nat) (hd : kget m.keyToRcvrs d = some r) :
    anyReceiver m (d :: rest) = some r := by
  simp [anyReceiver, hd]

theorem newReceiverForMapSet_fatal (cfg : MapperCfg) (m : MapperState)
    (ms : MapSet) (hlock : lock cfg m ms false = none) :
    newReceiverForMapSet cfg m ms = none := by
  simp [newReceiverForMapSet, hlock]

theorem newReceiverForMapSet_eq (cfg : MapperCfg) (m : MapperState)
    (ms : MapSet) (rcvrId : RcvrId) (m1 : MapperState)
    (hlock : lock cfg m ms false = some (rcvrId, m1)) :
    newReceiverForMapSet cfg m ms
      = some ((findOrCreateReceiver cfg m1 rcvrId).1,
          bindAll (findOrCreateReceiver cfg m1 rcvrId).2 ms
            (findOrCreateReceiver cfg m1 rcvrId).1) := by
  simp [newReceiverForMapSet, hlock]

theorem handleKeyed_unbound (cfg : MapperCfg) (m : MapperState) (ms : MapSet)
    (hany : anyReceiver m ms = none) :
    handleKeyedMsg cfg m ms = newReceiverForMapSet cfg m ms := by
  simp [handleKeyedMsg, hany]

theorem handleKeyed_sync_fatal (cfg : MapperCfg) (m : MapperState) (ms : MapSet)
    (rcvr : Nat) (hany : anyReceiver m ms = some rcvr)
    (hsync : syncReceivers cfg rcvr ms m = none) :
    handleKeyedMsg cfg m ms = none := by
  simp [handleKeyedMsg, hany, hsync]

theorem handleKeyed_sync (cfg : MapperCfg) (m : MapperState) (ms : MapSet)
    (rcvr : Nat) (m1 : MapperState) (hany : anyReceiver m ms = some rcvr)
    (hsync : syncReceivers cfg rcvr ms m = some m1) :
    handleKeyedMsg cfg m ms = some (rcvr, m1) := by
  simp [handleKeyedMsg, hany, hsync]

/-! ## Invariants of `syncReceivers` and `anyReceiver` -/

theorem syncReceivers_binds (cfg : MapperCfg) (rcvr : Nat)
    (l : List DictionaryKey) (m m' : MapperState)
    (h : syncReceivers cfg rcvr l m = some m') :
    (∀ dk, kget m.keyToRcvrs dk = some rcvr → kget m'.keyToRcvrs dk = some rcvr)
    ∧ ∀ dk ∈ l, kget m'.keyToRcvrs dk = some rcvr := by
  induction l generalizing m with
  | nil =>
    rw [sync_nil, Option.some_inj] at h
    subst h
    exact ⟨fun dk hdk => hdk, by simp⟩
  | cons d rest ih =>
    cases hd : kget m.keyToRcvrs d with
    | none =>
      cases hlk : lockKey cfg m d rcvr with
      | none => rw [sync_cons_unbound_fatal cfg rcvr d rest m hd hlk] at h; cases h
      | some m1 =>
        rw [sync_cons_unbound cfg rcvr d rest m m1 hd hlk] at h
        have hk1 := lockKey_keyToRcvrs cfg m d rcvr m1 hlk
        obtain ⟨pres, binds⟩ := ih m1 h
        have hm1 : ∀ dk, kget m.keyToRcvrs dk = some rcvr →
            kget m1.keyToRcvrs dk = some rcvr := by
          intro dk hdk
          rw [hk1]
          by_cases hdd : dk = d
          · subst hdd; exact kget_kset_self _ _ _
          · rw [kget_kset_other _ _ _ _ hdd]; exact hdk
        refine ⟨fun dk hdk => pres dk (hm1 dk hdk), ?_⟩
        intro dk hdk
        rcases List.mem_cons.mp hdk with rfl | hmem
        · exact pres dk (by rw [hk1]; exact kget_kset_self _ _ _)
        · exact binds dk hmem
    | some r =>
      by_cases hr : r = rcvr
      · subst hr
        rw [sync_cons_same cfg r d rest m hd] at h
        obtain ⟨pres, binds⟩ := ih m h
        refine ⟨pres, ?_⟩
        intro dk hdk
        rcases List.mem_cons.mp hdk with rfl | hmem
        · exact pres dk hd
        · exact binds dk hmem
      · rw [sync_cons_diff cfg rcvr r d rest m hd hr] at h
        cases h

theorem syncReceivers_bound (cfg : MapperCfg) (rcvr : Nat)
    (l : List DictionaryKey) (m m' : MapperState)
    (h : syncReceivers cfg rcvr l m = some m') :
    ∀ dk ∈ l, kget m.keyToRcvrs dk = none ∨ kget m.keyToRcvrs dk = some rcvr := by
  induction l generalizing m with
  | nil => simp
  | cons d rest ih =>
    cases hd : kget m.keyToRcvrs d with
    | none =>
      cases hlk : lockKey cfg m d rcvr with
      | none => rw [sync_cons_unbound_fatal cfg rcvr d rest m hd hlk] at h; cases h
      | some m1 =>
        rw [sync_cons_unbound cfg rcvr d rest m m1 hd hlk] at h
        have hk1 := lockKey_keyToRcvrs cfg m d rcvr m1 hlk
        intro dk hdk
        rcases List.mem_cons.mp hdk with rfl | hmem
        · exact Or.inl hd
        · by_cases hdd : dk = d
          · subst hdd; exact Or.inl hd
          · have := ih m1 h dk hmem
            rw [hk1, kget_kset_other _ _ _ _ hdd] at this
            exact this
    | some r =>
      by_cases hr : r = rcvr
      · subst hr
        rw [sync_cons_same cfg r d rest m hd] at h
        intro dk hdk
        rcases List.mem_cons.mp hdk with rfl | hmem
        · exact Or.inr hd
        · exact ih m h dk hmem
      · rw [sync_cons_diff cfg rcvr r d rest m hd hr] at h
        cases h

theorem anyReceiver_none (m : MapperState) (l : List DictionaryKey)
    (h : anyReceiver m l = none) : ∀ dk ∈ l, kget m.keyToRcvrs dk = none := by
  induction l with
  | nil => simp
  | cons d rest ih =>
    cases hd : kget m.keyToRcvrs d with
    | none =>
      rw [anyReceiver_cons_none m d rest hd] at h
      intro dk hdk
      rcases List.mem_cons.mp hdk with rfl | hmem
      · exact hd
      · exact ih h dk hmem
    | some r =>
      rw [anyReceiver_cons_some m d rest r hd] at h
      cases h

/-! ## C3 -/

/-- C3: for every keyed message whose handler returned map set `ms`, a
completed `handleMsg` leaves every key of `ms` bound in `keyToRcvrs` to the
single receiver the message was enqueued on; and if two keys of `ms` were
already bound to two distinct receivers before dispatch, `handleMsg` is fatal
(`glog.Fatalf`, modelled as `none`). -/
theorem handleMsg_mapset_coherence (cfg : MapperCfg) (m : MapperState) (ms : MapSet) :
    (∀ r m', handleKeyedMsg cfg m ms = some (r, m') →
       ∀ dk ∈ ms, kget m'.keyToRcvrs dk = some r)
    ∧ (∀ dk1 ∈ ms, ∀ dk2 ∈ ms, ∀ r1 r2,
        kget m.keyToRcvrs dk1 = some r1 → kget m.keyToRcvrs dk2 = some r2 →
        r1 ≠ r2 → handleKeyedMsg cfg m ms = none) := by
  constructor
  · intro r m' h dk hdk
    cases hany : anyReceiver m ms with
    | none =>
      rw [handleKeyed_unbound cfg m ms hany] at h
      cases hlock : lock cfg m ms false with
      | none => rw [newReceiverForMapSet_fatal cfg m ms hlock] at h; cases h
      | some p =>
        obtain ⟨rcvrId, m1⟩ := p
        rw [newReceiverForMapSet_eq cfg m ms rcvrId m1 hlock,
          Option.some_inj] at h
        obtain ⟨rfl, rfl⟩ := Prod.mk.injEq .. ▸ h
        exact bindAll_binds _ ms _ dk (Or.inl hdk)
    | some rcvr =>
      cases hsync : syncReceivers cfg rcvr ms m with
      | none => rw [handleKeyed_sync_fatal cfg m ms rcvr hany hsync] at h; cases h
      | some m1 =>
        rw [handleKeyed_sync cfg m ms rcvr m1 hany hsync, Option.some_inj] at h
        obtain ⟨rfl, rfl⟩ := Prod.mk.injEq .. ▸ h
        exact (syncReceivers_binds cfg rcvr ms m m1 hsync).2 dk hdk
  · intro dk1 hdk1 dk2 hdk2 r1 r2 hb1 hb2 hne
    cases hany : anyReceiver m ms with
    | none =>
      have := anyReceiver_none m ms hany dk1 hdk1
      rw [hb1] at this
      cases this
    | some rcvr =>
      cases hsync : syncReceivers cfg rcvr ms m with
      | none => exact handleKeyed_sync_fatal cfg m ms rcvr hany hsync
      | some m1 =>
        have hbound := syncReceivers_bound cfg rcvr ms m m1 hsync
        have h1 := hbound dk1 hdk1
        have h2 := hbound dk2 hdk2
        rw [hb1] at h1
        rw [hb2] at h2
        rcases h1 with h1 | h1
        · cases h1
        · rcases h2 with h2 | h2
          · cases h2
          · cases Option.some_inj.mp h1
            cases Option.some_inj.mp h2
            exact absurd rfl hne

/-- C3 witness: two keys already bound to two distinct receivers make the
keyed dispatch fatal. -/
theorem handleMsg_mapset_coherence_witness :
    handleKeyedMsg w3cfg w3m [⟨"d", "a"⟩, ⟨"d", "b"⟩] = none := by
  exact (handleMsg_mapset_coherence w3cfg w3m [⟨"d", "a"⟩, ⟨"d", "b"⟩]).2
    ⟨"d", "a"⟩ (List.mem_cons_self _ _)
    ⟨"d", "b"⟩ (List.mem_cons_of_mem _ (List.mem_cons_self _ _))
    0 1 rfl rfl (by decide)

/-! ## C4 -/

theorem lock_isol (cfg : MapperCfg) (m : MapperState) (ms : MapSet)
    (force : Bool) (hiso : cfg.isIsol = true) :
    lock cfg m ms force
      = some (⟨cfg.stageId, cfg.actorName, (m.lastRId + 1) % u32⟩,
          { m with lastRId := (m.lastRId + 1) % u32 }) := by
  simp [lock, nextRcvrId, hiso]

theorem lock_reg_fatal (cfg : MapperCfg) (m : MapperState) (ms : MapSet)
    (force : Bool) (hiso : cfg.isIsol = false)
    (hreg : (if force
        then some (regSet ⟨cfg.stageId, cfg.actorName, (m.lastRId + 1) % u32⟩ ms m.store)
        else storeOrGet ⟨cfg.stageId, cfg.actorName, (m.lastRId + 1) % u32⟩ ms m.store)
      = none) :
    lock cfg m ms force = none := by
  simp only [lock, nextRcvrId]
  rw [hiso]
  simp only [Bool.false_eq_true, if_false]
  rw [hreg]

theorem lock_reg_echo (cfg : MapperCfg) (m : MapperState) (ms : MapSet)
    (force : Bool) (v : regVal) (st1 : Store) (hiso : cfg.isIsol = false)
    (hreg : (if force
        then some (regSet ⟨cfg.stageId, cfg.actorName, (m.lastRId + 1) % u32⟩ ms m.store)
        else storeOrGet ⟨cfg.stageId, cfg.actorName, (m.lastRId + 1) % u32⟩ ms m.store)
      = some (v, st1))
    (hv : v.StageId = cfg.stageId ∧ v.RcvrId = (m.lastRId + 1) % u32) :
    lock cfg m ms force
      = some (⟨cfg.stageId, cfg.actorName, (m.lastRId + 1) % u32⟩,
          { m with lastRId := (m.lastRId + 1) % u32, store := st1 }) := by
  simp only [lock, nextRcvrId]
  rw [hiso]
  simp only [Bool.false_eq_true, if_false]
  rw [hreg]
  simp only [if_pos hv]

theorem lock_reg_foreign (cfg : MapperCfg) (m : MapperState) (ms : MapSet)
    (force : Bool) (v : regVal) (st1 : Store) (hiso : cfg.isIsol = false)
    (hreg : (if force
        then some (regSet ⟨cfg.stageId, cfg.actorName, (m.lastRId + 1) % u32⟩ ms m.store)
        else storeOrGet ⟨cfg.stageId, cfg.actorName, (m.lastRId + 1) % u32⟩ ms m.store)
      = some (v, st1))
    (hv : ¬(v.StageId = cfg.stageId ∧ v.RcvrId = (m.lastRId + 1) % u32)) :
    lock cfg m ms force
      = some (⟨v.StageId, cfg.actorName, v.RcvrId⟩,
          { m with lastRId := ((m.lastRId + 1) % u32 + u32 - 1) % u32, store := st1 }) := by
  simp only [lock, nextRcvrId]
  rw [hiso]
  simp only [Bool.false_eq_true, if_false]
  rw [hreg]
  simp only [if_neg hv]

/-- C4: `mapper.lock(ms, force)` either returns the fresh tentative local id
(isolated mode, or the registry echoed the tentative id) with `lastRId`
exactly one larger than before, or the registry returned a different RegVal,
in which case `lastRId` is rewound to its prior value and the returned id
carries the foreign StageId and RcvrId. -/
theorem lock_lastRId (cfg : MapperCfg) (m : MapperState) (ms : MapSet)
    (force : Bool) (id : RcvrId) (m' : MapperState)
    (hw : m.lastRId + 1 < u32)
    (h : lock cfg m ms force = some (id, m')) :
    (id = ⟨cfg.stageId, cfg.actorName, m.lastRId + 1⟩ ∧ m'.lastRId = m.lastRId + 1)
    ∨ (m'.lastRId = m.lastRId ∧ id.ActorName = cfg.actorName
       ∧ ∃ v st1,
          (if force
            then some (regSet ⟨cfg.stageId, cfg.actorName, m.lastRId + 1⟩ ms m.store)
            else storeOrGet ⟨cfg.stageId, cfg.actorName, m.lastRId + 1⟩ ms m.store)
            = some (v, st1)
          ∧ ¬(v.StageId = cfg.stageId ∧ v.RcvrId = m.lastRId + 1)
          ∧ id.StageId = v.StageId ∧ id.Id = v.RcvrId) := by
  have hmod : (m.lastRId + 1) % u32 = m.lastRId + 1 := Nat.mod_eq_of_lt hw
  cases hiso : cfg.isIsol with
  | true =>
    rw [lock_isol cfg m ms force hiso, hmod, Option.some_inj] at h
    obtain ⟨rfl, rfl⟩ := Prod.mk.injEq .. ▸ h
    exact Or.inl ⟨rfl, rfl⟩
  | false =>
    cases hreg : (if force
        then some (regSet ⟨cfg.stageId, cfg.actorName, (m.lastRId + 1) % u32⟩ ms m.store)
        else storeOrGet ⟨cfg.stageId, cfg.actorName, (m.lastRId + 1) % u32⟩ ms m.store) with
    | none => rw [lock_reg_fatal cfg m ms force hiso hreg] at h; cases h
    | some p =>
      obtain ⟨v, st1⟩ := p
      by_cases hv : v.StageId = cfg.stageId ∧ v.RcvrId = (m.lastRId + 1) % u32
      · rw [lock_reg_echo cfg m ms force v st1 hiso hreg hv, hmod, Option.some_inj] at h
        obtain ⟨rfl, rfl⟩ := Prod.mk.injEq .. ▸ h
        exact Or.inl ⟨rfl, rfl⟩
      · rw [lock_reg_foreign cfg m ms force v st1 hiso hreg hv, Option.some_inj] at h
        obtain ⟨rfl, rfl⟩ := Prod.mk.injEq .. ▸ h
        rw [hmod] at hreg hv
        refine Or.inr ⟨?_, rfl, v, st1, hreg, hv, rfl, rfl⟩
        show ((m.lastRId + 1) % u32 + u32 - 1) % u32 = m.lastRId
        rw [hmod]
        have hlt : m.lastRId < u32 := Nat.lt_of_succ_lt hw
        simp only [u32] at *
        omega

/-- C4 witness: in isolated mode a lock allocates the next dense local id,
bumping `lastRId` from 5 to 6. -/
theorem lock_lastRId_witness : w4m'.lastRId = 6 := by
  have h : lock w4cfg w4m [] false = some (⟨1, "a", 6⟩, w4m') := rfl
  rcases lock_lastRId w4cfg w4m [] false ⟨1, "a", 6⟩ w4m' (by decide) h with
    ⟨-, h2⟩ | ⟨-, -, v, st1, -, hv, hs, hi⟩
  · exact h2
  · exact absurd ⟨by rw [← hs]; rfl, by rw [← hi]; rfl⟩ hv

/-! ## Lemmas for migration -/

theorem keysOfRcvr_mem (rid : Nat → RcvrId) (l : KeyMap) (id : RcvrId)
    (dk : DictionaryKey) (t : Nat) (hget : kget l dk = some t)
    (hrid : rid t = id) : dk ∈ keysOfRcvr rid l id := by
  induction l with
  | nil => cases hget
  | cons p rest ih =>
    obtain ⟨k, t0⟩ := p
    by_cases hk : k = dk
    · subst hk
      rw [kget, if_pos rfl, Option.some_inj] at hget
      subst hget
      rw [keysOfRcvr, if_pos hrid]
      exact List.mem_cons_self _ _
    · rw [kget, if_neg hk] at hget
      by_cases h0 : rid t0 = id
      · rw [keysOfRcvr, if_pos h0]
        exact List.mem_cons_of_mem _ (ih hget)
      · rw [keysOfRcvr, if_neg h0]
        exact ih hget

theorem proxyFromLocal_ok (cfg : MapperCfg) (m : MapperState) (id : RcvrId)
    (lTok : Nat) (hlocal : isLocalRcvr cfg id = false)
    (hnew : m.idToRcvrs id = none) :
    proxyFromLocal cfg m id lTok = Except.ok (m.nextTok,
      { m with
        nextTok := m.nextTok + 1
        rid := fun t => if t = m.nextTok then id else m.rid t
        isProxyTok := fun t => if t = m.nextTok then true else m.isProxyTok t
        idToRcvrs := fun i =>
          if i = id then some m.nextTok
          else if i = m.rid lTok then some m.nextTok
          else m.idToRcvrs i }) := by
  simp [proxyFromLocal, hlocal, hnew]

/-! ## C5 -/

/-- C5: `mapper.migrate` of the detached id sends an error and changes
nothing; a migration whose every step succeeds installs both the new remote
id and the old local id in `idToRcvrs`, mapped to the same (proxy) receiver
object, and rebinds every key previously bound to the old receiver to that
proxy in `keyToRcvrs`. -/
theorem migrate_effects (cfg : MapperCfg) (env : MigrateEnv) (m : MapperState)
    (rcvrId : RcvrId) (dest : Nat) :
    (isDetachedId rcvrId = true →
       migrate cfg env m rcvrId dest = some (m, ["Cannot migrate detached"]))
    ∧ (∀ oldTok newId m' sends,
        isDetachedId rcvrId = false →
        m.idToRcvrs rcvrId = some oldTok →
        m.isProxyTok oldTok = false →
        m.rid oldTok = rcvrId →
        oldTok < m.nextTok →
        (∀ p ∈ m.keyToRcvrs, p.2 < m.nextTok) →
        env.stopErr = none → env.dialErr = none →
        env.encodeHsErr = none → env.encodeCmdErr = none →
        env.decodeRes = some newId →
        isLocalRcvr cfg newId = false →
        m.idToRcvrs newId = none →
        migrate cfg env m rcvrId dest = some (m', sends) →
        sends = []
        ∧ m'.idToRcvrs newId = some m.nextTok
        ∧ m'.idToRcvrs rcvrId = some m.nextTok
        ∧ m'.isProxyTok m.nextTok = true
        ∧ (∀ dk t, kget m.keyToRcvrs dk = some t → m.rid t = rcvrId →
            kget m'.keyToRcvrs dk = some m.nextTok)) := by
  constructor
  · intro hdet
    simp [migrate, hdet]
  · intro oldTok newId m' sends hdet hold hprox hrid hlt htoks hstop hdial
      hehs hecmd hdec hlocal hnew h
    have hne : rcvrId ≠ newId := by
      intro he
      rw [he, hnew] at hold
      cases hold
    rw [migrate] at h
    simp only [hdet, Bool.false_eq_true, if_false, hold, hstop, hdial, hehs,
      hecmd, hdec, hprox,
      proxyFromLocal_ok cfg m newId oldTok hlocal hnew,
      Option.some.injEq, Prod.mk.injEq] at h
    obtain ⟨rfl, rfl⟩ := h
    refine ⟨rfl, ?_, ?_, ?_, ?_⟩
    · rw [(bindAll_fields _ _ _).1]
      simp
    · rw [(bindAll_fields _ _ _).1]
      show (if rcvrId = newId then some m.nextTok
        else if rcvrId = m.rid oldTok then some m.nextTok
        else m.idToRcvrs rcvrId) = some m.nextTok
      rw [if_neg hne, hrid, if_pos rfl]
    · rw [(bindAll_fields _ _ _).2.2.1]
      simp
    · intro dk t hget ht
      refine bindAll_binds _ _ _ _ (Or.inl ?_)
      have htne : t ≠ m.nextTok :=
        Nat.ne_of_lt (htoks (dk, t) (kget_mem _ _ _ hget))
      have holdne : oldTok ≠ m.nextTok := Nat.ne_of_lt hlt
      show dk ∈ mapSetOfRcvr _ _
      unfold mapSetOfRcvr
      refine keysOfRcvr_mem _ _ _ dk t hget ?_
      show (if t = m.nextTok then newId else m.rid t)
          = (if oldTok = m.nextTok then newId else m.rid oldTok)
      rw [if_neg htne, if_neg holdne, ht, hrid]

/-- C5 witness: a fully successful migration of receiver `(1,"a",5)` to stage
2 rebinds its key to the freshly allocated proxy object (token 1). -/
theorem migrate_effects_witness :
    kget w5res.1.keyToRcvrs ⟨"d", "a"⟩ = some 1 := by
  have h : migrate w5cfg w5env w5m w5rid 2 = some (w5res.1, w5res.2) := rfl
  exact ((migrate_effects w5cfg w5env w5m w5rid 2).2 0 ⟨2, "a", 9⟩ w5res.1 w5res.2
    rfl rfl rfl rfl (by decide) (by decide) rfl rfl rfl rfl rfl rfl rfl h).2.2.2.2
    ⟨"d", "a"⟩ 0 rfl rfl

/-! ## C10 -/

/-- C10: `mapper.migrate` sends exactly one value on the response channel
when any step fails — and that value carries the failing step's error, for
each failure path: detached id, unknown receiver, stop failure, dial failure,
encode-handshake failure, encode-command failure, decode failure and
proxy-conversion failure; on the fully successful path nothing is sent on
the response channel at all. -/
theorem migrate_resCh_contract (cfg : MapperCfg) (env : MigrateEnv)
    (m : MapperState) (rcvrId : RcvrId) (dest : Nat) (m' : MapperState)
    (sends : List String)
    (h : migrate cfg env m rcvrId dest = some (m', sends)) :
    ((∃ e, sends = [e]) ∨ sends = [])
    ∧ (sends = [] ↔
        (isDetachedId rcvrId = false
         ∧ (∃ tok, m.idToRcvrs rcvrId = some tok ∧ m.isProxyTok tok = false)
         ∧ env.stopErr = none ∧ env.dialErr = none
         ∧ env.encodeHsErr = none ∧ env.encodeCmdErr = none
         ∧ (∃ newId, env.decodeRes = some newId
             ∧ isLocalRcvr cfg newId = false ∧ m.idToRcvrs newId = none)))
    ∧ (∀ e, env.stopErr = some e → isDetachedId rcvrId = false →
        (∃ tok, m.idToRcvrs rcvrId = some tok) → sends = [e])
    ∧ (∀ e, env.dialErr = some e → env.stopErr = none →
        isDetachedId rcvrId = false →
        (∃ tok, m.idToRcvrs rcvrId = some tok) → sends = [e])
    ∧ (isDetachedId rcvrId = true → sends = ["Cannot migrate detached"])
    ∧ (isDetachedId rcvrId = false → m.idToRcvrs rcvrId = none →
        sends = ["Receiver not found"])
    ∧ (∀ e, env.encodeHsErr = some e → env.stopErr = none →
        env.dialErr = none → isDetachedId rcvrId = false →
        (∃ tok, m.idToRcvrs rcvrId = some tok) → sends = [e])
    ∧ (∀ e, env.encodeCmdErr = some e → env.stopErr = none →
        env.dialErr = none → env.encodeHsErr = none →
        isDetachedId rcvrId = false →
        (∃ tok, m.idToRcvrs rcvrId = some tok) → sends = [e])
    ∧ (env.decodeRes = none → env.stopErr = none → env.dialErr = none →
        env.encodeHsErr = none → env.encodeCmdErr = none →
        isDetachedId rcvrId = false →
        (∃ tok, m.idToRcvrs rcvrId = some tok) →
        sends = ["Cannot decode the new receiver"])
    ∧ (∀ e newId tok, env.decodeRes = some newId →
        m.idToRcvrs rcvrId = some tok →
        proxyFromLocal cfg m newId tok = Except.error e →
        env.stopErr = none → env.dialErr = none →
        env.encodeHsErr = none → env.encodeCmdErr = none →
        isDetachedId rcvrId = false → sends = [e]) := by
  cases hdet : isDetachedId rcvrId with
  | true =>
    simp only [migrate, hdet, eq_self_iff_true, if_true,
      Option.some.injEq, Prod.mk.injEq] at h
    obtain ⟨rfl, rfl⟩ := h
    refine ⟨Or.inl ⟨_, rfl⟩, ?_, ?_, ?_, ?_, ?_, ?_, ?_, ?_, ?_⟩
    · constructor
      · intro hc; cases hc
      · rintro ⟨hc, -⟩; cases hc
    · intro e _ hd _
      cases hd
    · intro e _ _ hd _
      cases hd
    · intro _
      rfl
    · intro hd _
      cases hd
    · intro e _ _ _ hd _
      cases hd
    · intro e _ _ _ _ hd _
      cases hd
    · intro _ _ _ _ _ hd _
      cases hd
    · intro e newId tok _ _ _ _ _ _ _ hd
      cases hd
  | false =>
    cases hold : m.idToRcvrs rcvrId with
    | none =>
      simp only [migrate, hdet, Bool.false_eq_true, if_false, hold,
        Option.some.injEq, Prod.mk.injEq] at h
      obtain ⟨rfl, rfl⟩ := h
      refine ⟨Or.inl ⟨_, rfl⟩, ?_, ?_, ?_, ?_, ?_, ?_, ?_, ?_, ?_⟩
      · constructor
        · intro hc; cases hc
        · rintro ⟨-, ⟨tok, htok, -⟩, -⟩; cases htok
      · rintro e _ _ ⟨tok, htok⟩
        cases htok
      · rintro e _ _ _ ⟨tok, htok⟩
        cases htok
      · intro hd
        cases hd
      · intro _ _
        rfl
      · rintro e _ _ _ _ ⟨tok, htok⟩
        cases htok
      · rintro e _ _ _ _ _ ⟨tok, htok⟩
        cases htok
      · rintro _ _ _ _ _ _ ⟨tok, htok⟩
        cases htok
      · intro e newId tok _ htok _ _ _ _ _ _
        cases htok
    | some oldTok =>
      cases hstop : env.stopErr with
      | some e0 =>
        simp only [migrate, hdet, Bool.false_eq_true, if_false, hold, hstop,
          Option.some.injEq, Prod.mk.injEq] at h
        obtain ⟨rfl, rfl⟩ := h
        refine ⟨Or.inl ⟨_, rfl⟩, ?_, ?_, ?_, ?_, ?_, ?_, ?_, ?_, ?_⟩
        · constructor
          · intro hc; cases hc
          · rintro ⟨-, -, hc, -⟩; cases hc
        · intro e he _ _
          obtain rfl := Option.some_inj.mp he
          rfl
        · intro e _ hn _ _
          cases hn
        · intro hd
          cases hd
        · intro _ hn
          cases hn
        · intro e _ hs _ _ _
          cases hs
        · intro e _ hs _ _ _ _
          cases hs
        · intro _ hs _ _ _ _ _
          cases hs
        · intro e newId tok _ _ _ hs _ _ _ _
          cases hs
      | none =>
        cases hdial : env.dialErr with
        | some e0 =>
          simp only [migrate, hdet, Bool.false_eq_true, if_false, hold, hstop,
            hdial, Option.some.injEq, Prod.mk.injEq] at h
          obtain ⟨rfl, rfl⟩ := h
          refine ⟨Or.inl ⟨_, rfl⟩, ?_, ?_, ?_, ?_, ?_, ?_, ?_, ?_, ?_⟩
          · constructor
            · intro hc; cases hc
            · rintro ⟨-, -, -, hc, -⟩; cases hc
          · intro e he _ _
            cases he
          · intro e he _ _ _
            obtain rfl := Option.some_inj.mp he
            rfl
          · intro hd
            cases hd
          · intro _ hn
            cases hn
          · intro e _ _ hdl _ _
            cases hdl
          · intro e _ _ hdl _ _ _
            cases hdl
          · intro _ _ hdl _ _ _ _
            cases hdl
          · intro e newId tok _ _ _ _ hdl _ _ _
            cases hdl
        | none =>
          cases hehs : env.encodeHsErr with
          | some e0 =>
            simp only [migrate, hdet, Bool.false_eq_true, if_false, hold,
              hstop, hdial, hehs, Option.some.injEq, Prod.mk.injEq] at h
            obtain ⟨rfl, rfl⟩ := h
            refine ⟨Or.inl ⟨_, rfl⟩, ?_, ?_, ?_, ?_, ?_, ?_, ?_, ?_, ?_⟩
            · constructor
              · intro hc; cases hc
              · rintro ⟨-, -, -, -, hc, -⟩; cases hc
            · intro e he _ _
              cases he
            · intro e he _ _ _
              cases he
            · intro hd
              cases hd
            · intro _ hn
              cases hn
            · intro e he _ _ _ _
              obtain rfl := Option.some_inj.mp he
              rfl
            · intro e _ _ _ hhs _ _
              cases hhs
            · intro _ _ _ hhs _ _ _
              cases hhs
            · intro e newId tok _ _ _ _ _ hhs _ _
              cases hhs
          | none =>
            cases hecmd : env.encodeCmdErr with
            | some e0 =>
              simp only [migrate, hdet, Bool.false_eq_true, if_false, hold,
                hstop, hdial, hehs, hecmd, Option.some.injEq, Prod.mk.injEq] at h
              obtain ⟨rfl, rfl⟩ := h
              refine ⟨Or.inl ⟨_, rfl⟩, ?_, ?_, ?_, ?_, ?_, ?_, ?_, ?_, ?_⟩
              · constructor
                · intro hc; cases hc
                · rintro ⟨-, -, -, -, -, hc, -⟩; cases hc
              · intro e he _ _
                cases he
              · intro e he _ _ _
                cases he
              · intro hd
                cases hd
              · intro _ hn
                cases hn
              · intro e he _ _ _ _
                cases he
              · intro e he _ _ _ _ _
                obtain rfl := Option.some_inj.mp he
                rfl
              · intro _ _ _ _ hcm _ _
                cases hcm
              · intro e newId tok _ _ _ _ _ _ hcm _
                cases hcm
            | none =>
              cases hdec : env.decodeRes with
              | none =>
                simp only [migrate, hdet, Bool.false_eq_true, if_false, hold,
                  hstop, hdial, hehs, hecmd, hdec, Option.some.injEq,
                  Prod.mk.injEq] at h
                obtain ⟨rfl, rfl⟩ := h
                refine ⟨Or.inl ⟨_, rfl⟩, ?_, ?_, ?_, ?_, ?_, ?_, ?_, ?_, ?_⟩
                · constructor
                  · intro hc; cases hc
                  · rintro ⟨-, -, -, -, -, -, ⟨newId, hdec2, -⟩⟩; cases hdec2
                · intro e he _ _
                  cases he
                · intro e he _ _ _
                  cases he
                · intro hd
                  cases hd
                · intro _ hn
                  cases hn
                · intro e he _ _ _ _
                  cases he
                · intro e he _ _ _ _ _
                  cases he
                · intro _ _ _ _ _ _ _
                  rfl
                · intro e newId tok hdec2 _ _ _ _ _ _ _
                  cases hdec2
              | some newId =>
                cases hprox : m.isProxyTok oldTok with
                | true =>
                  simp only [migrate, hdet, Bool.false_eq_true, if_false, hold,
                    hstop, hdial, hehs, hecmd, hdec, hprox, eq_self_iff_true,
                    if_true] at h
                  cases h
                | false =>
                  cases hp : proxyFromLocal cfg m newId oldTok with
                  | error e0 =>
                    simp only [migrate, hdet, Bool.false_eq_true, if_false,
                      hold, hstop, hdial, hehs, hecmd, hdec, hprox, hp,
                      Option.some.injEq, Prod.mk.injEq] at h
                    obtain ⟨rfl, rfl⟩ := h
                    refine ⟨Or.inl ⟨_, rfl⟩, ?_, ?_, ?_, ?_, ?_, ?_, ?_, ?_, ?_⟩
                    · constructor
                      · intro hc; cases hc
                      · rintro ⟨-, ⟨tok, htok, hptok⟩, -, -, -, -,
                          ⟨newId2, hdec2, hlocal2, hnew2⟩⟩
                        obtain rfl := Option.some_inj.mp hdec2
                        rw [proxyFromLocal_ok cfg m newId oldTok hlocal2 hnew2]
                          at hp
                        cases hp
                    · intro e he _ _
                      cases he
                    · intro e he _ _ _
                      cases he
                    · intro hd
                      cases hd
                    · intro _ hn
                      cases hn
                    · intro e he _ _ _ _
                      cases he
                    · intro e he _ _ _ _ _
                      cases he
                    · intro hdec2 _ _ _ _ _ _
                      cases hdec2
                    · intro e newId2 tok2 hdec2 htok2 hp2 _ _ _ _ _
                      obtain rfl := Option.some_inj.mp hdec2
                      obtain rfl := Option.some_inj.mp htok2
                      rw [hp] at hp2
                      cases hp2
                      rfl
                  | ok p =>
                    obtain ⟨tok, m1⟩ := p
                    simp only [migrate, hdet, Bool.false_eq_true, if_false,
                      hold, hstop, hdial, hehs, hecmd, hdec, hprox, hp,
                      Option.some.injEq, Prod.mk.injEq] at h
                    obtain ⟨rfl, rfl⟩ := h
                    have hlocal : isLocalRcvr cfg newId = false := by
                      cases hl : isLocalRcvr cfg newId with
                      | false => rfl
                      | true =>
                        rw [proxyFromLocal] at hp
                        rw [hl] at hp
                        simp only [eq_self_iff_true, if_true] at hp
                        cases hp
                    have hnew : m.idToRcvrs newId = none := by
                      cases hn : m.idToRcvrs newId with
                      | none => rfl
                      | some q =>
                        rw [proxyFromLocal] at hp
                        rw [hlocal] at hp
                        simp only [Bool.false_eq_true, if_false, hn] at hp
                        cases hp
                    refine ⟨Or.inr rfl, ?_, ?_, ?_, ?_, ?_, ?_, ?_, ?_, ?_⟩
                    · refine ⟨fun _ => ?_, fun _ => rfl⟩
                      exact ⟨by simp, ⟨oldTok, by simp, hprox⟩, by simp,
                        by simp, by simp, by simp, newId, by simp, hlocal, hnew⟩
                    · intro e he _ _
                      cases he
                    · intro e he _ _ _
                      cases he
                    · intro hd
                      cases hd
                    · intro _ hn2
                      cases hn2
                    · intro e he _ _ _ _
                      cases he
                    · intro e he _ _ _ _ _
                      cases he
                    · intro hdec2 _ _ _ _ _ _
                      cases hdec2
                    · intro e newId2 tok2 hdec2 htok2 hp2 _ _ _ _ _
                      obtain rfl := Option.some_inj.mp hdec2
                      obtain rfl := Option.some_inj.mp htok2
                      rw [hp] at hp2
                      cases hp2

/-- C10 witness: when stopping the old receiver fails, exactly the stop error
is sent on the response channel. -/
theorem migrate_resCh_contract_witness :
    ((migrate w10cfg w10env w10m w10rid 3).getD (w10m, [])).2 = ["stop failed"] :=
  (migrate_resCh_contract w10cfg w10env w10m w10rid 3 w10m
    ["stop failed"] rfl).2.2.1 "stop failed" rfl rfl ⟨0, rfl⟩

/-! ## Backoff lemmas (C7) -/

theorem capEq (x : Nat) :
    (if x > maxWaitNs then maxWaitNs else x) = min maxWaitNs x := by
  by_cases hc : x > maxWaitNs
  · rw [if_pos hc, Nat.min_eq_left (le_of_lt hc)]
  · rw [if_neg hc, Nat.min_eq_right (Nat.le_of_not_lt hc)]

theorem minCap (w l : Nat) :
    min maxWaitNs (min maxWaitNs (w * 2) * 2 ^ l)
      = min maxWaitNs (w * 2 ^ (l + 1)) := by
  have hpow : 0 < 2 ^ l := Nat.pos_pow_of_pos l (by decide)
  by_cases hc : maxWaitNs ≤ w * 2
  · rw [Nat.min_eq_left hc]
    have h1 : maxWaitNs ≤ maxWaitNs * 2 ^ l := Nat.le_mul_of_pos_right _ hpow
    have h2 : maxWaitNs ≤ w * 2 ^ (l + 1) := by
      calc maxWaitNs ≤ w * 2 := hc
        _ ≤ w * 2 * 2 ^ l := Nat.le_mul_of_pos_right _ hpow
        _ = w * 2 ^ (l + 1) := by ring
    rw [Nat.min_eq_left h1, Nat.min_eq_left h2]
  · rw [Nat.min_eq_right (Nat.le_of_not_le hc)]
    have hrw : w * 2 * 2 ^ l = w * 2 ^ (l + 1) := by ring
    rw [hrw]

theorem dialFailStep (now : Nat) (t : dialTry) (hgate : t.next < now) :
    (newClient none (Except.ok "") false now t).t
      = { t with
          tries := t.tries + 1
          wait := min maxWaitNs (t.wait * 2)
          next := now + min maxWaitNs (t.wait * 2) } := by
  simp [newClient, hgate, capEq]

theorem dialFailSeq_invariant (ts : List Nat) (t : dialTry) (hne : ts ≠ [])
    (hg : dialFailGatedB ts t = true) :
    (dialFailSeq ts t).wait = min maxWaitNs (t.wait * 2 ^ ts.length)
    ∧ (dialFailSeq ts t).next = lastTime ts + (dialFailSeq ts t).wait := by
  induction ts generalizing t with
  | nil => exact absurd rfl hne
  | cons n rest ih =>
    rw [dialFailGatedB, Bool.and_eq_true] at hg
    obtain ⟨hg1, hg2⟩ := hg
    have hgate : t.next < n := of_decide_eq_true hg1
    have hstep := dialFailStep n t hgate
    cases rest with
    | nil =>
      rw [show dialFailSeq [n] t
          = (newClient none (Except.ok "") false n t).t from rfl, hstep]
      refine ⟨?_, rfl⟩
      show min maxWaitNs (t.wait * 2) = min maxWaitNs (t.wait * 2 ^ 1)
      rw [pow_one]
    | cons r rest' =>
      have hne2 : r :: rest' ≠ [] := by simp
      rw [show dialFailSeq (n :: r :: rest') t
          = dialFailSeq (r :: rest')
              (newClient none (Except.ok "") false n t).t from rfl, hstep]
      rw [hstep] at hg2
      obtain ⟨hwait, hnext⟩ := ih _ hne2 hg2
      constructor
      · rw [hwait]
        show min maxWaitNs (min maxWaitNs (t.wait * 2) * 2 ^ (r :: rest').length)
          = min maxWaitNs (t.wait * 2 ^ ((r :: rest').length + 1))
        exact minCap t.wait (r :: rest').length
      · rw [hnext]
        rfl

/-! ## C7 -/

/-- C7: before `next` a client-creation attempt returns a `rpcBackoffError`
(whose `Temporary()` and `Timeout()` are both true) without dialing and
without touching the retry state; after `k` consecutive failed dials from the
fresh retry state, `next` is at least the last dial time plus
`min(maxWait, 2^k * minWait)`; a successful dial resets `wait` to one second
and `next` to `now`. -/
theorem newClient_backoff_contract :
    (∀ (t : dialTry) (now : Nat) (reg : Except String String) (dialOk : Bool),
        now < t.next →
        newClient none reg dialOk now t
          = ⟨none, some (RpcErr.backoff ⟨t.next⟩), false, t⟩)
    ∧ (∀ e, rpcBackoffErrorTemporary e = true ∧ rpcBackoffErrorTimeout e = true)
    ∧ (∀ (a : String) (now : Nat) (t : dialTry), t.next < now →
        (newClient none (Except.ok a) true now t).t.wait = oneSecondNs
        ∧ (newClient none (Except.ok a) true now t).t.next = now)
    ∧ (∀ ts : List Nat, ts ≠ [] → dialFailGatedB ts freshDialTry = true →
        lastTime ts + min maxWaitNs (minWaitNs * 2 ^ ts.length)
          ≤ (dialFailSeq ts freshDialTry).next) := by
  refine ⟨?_, ?_, ?_, ?_⟩
  · intro t now reg dialOk h
    have hg : ¬ (t.next < now) := fun hc => absurd h (Nat.lt_asymm hc)
    simp [newClient, hg]
  · intro e
    exact ⟨rfl, rfl⟩
  · intro a now t h
    simp [newClient, h]
  · intro ts hne hg
    obtain ⟨hwait, hnext⟩ := dialFailSeq_invariant ts freshDialTry hne hg
    rw [hnext, hwait]
    exact Nat.le_refl _

/-- C7 witness: a call at time 5 with `next = 9` backs off; a successful dial
at time 7 sets `next` to 7; two gated failed dials from fresh state put
`next` at least `min(8s, 50ms * 4)` past the second dial. -/
theorem newClient_backoff_contract_witness :
    newClient none (Except.ok "") true 5 ⟨9, minWaitNs, 0⟩
        = ⟨none, some (RpcErr.backoff ⟨9⟩), false, ⟨9, minWaitNs, 0⟩⟩
    ∧ (newClient none (Except.ok "") true 7 ⟨3, minWaitNs, 0⟩).t.next = 7
    ∧ lastTime [1, 200000000]
        + min maxWaitNs (minWaitNs * 2 ^ ([1, 200000000] : List Nat).length)
        ≤ (dialFailSeq [1, 200000000] freshDialTry).next := by
  obtain ⟨p1, p2, p3, p4⟩ := newClient_backoff_contract
  exact ⟨p1 ⟨9, minWaitNs, 0⟩ 5 (Except.ok "") true (by decide),
    (p3 "" 7 ⟨3, minWaitNs, 0⟩ (by decide)).2,
    p4 [1, 200000000] (by decide) (by decide)⟩

/-! ## Reporter-count lemmas (C8) -/

theorem unreachCount_append (toH g : Nat) (l1 l2 : List ReportEvent) :
    unreachCount toH g (l1 ++ l2)
      = unreachCount toH g l1 + unreachCount toH g l2 := by
  induction l1 with
  | nil => simp [unreachCount]
  | cons e rest ih =>
    cases e with
    | unreachable t gg => simp [unreachCount, ih, Nat.add_assoc]
    | snapshot t gg s => simp [unreachCount, ih]

theorem snapFailCount_append (l1 l2 : List ReportEvent) :
    snapFailCount (l1 ++ l2) = snapFailCount l1 + snapFailCount l2 := by
  induction l1 with
  | nil => simp [snapFailCount]
  | cons e rest ih =>
    cases e with
    | unreachable t gg => simp [snapFailCount, ih]
    | snapshot t gg s =>
      cases s with
      | finish => simp [snapFailCount, ih]
      | failure => simp [snapFailCount, ih, Nat.add_assoc]

theorem snapFinCount_append (l1 l2 : List ReportEvent) :
    snapFinCount (l1 ++ l2) = snapFinCount l1 + snapFinCount l2 := by
  induction l1 with
  | nil => simp [snapFinCount]
  | cons e rest ih =>
    cases e with
    | unreachable t gg => simp [snapFinCount, ih]
    | snapshot t gg s =>
      cases s with
      | finish => simp [snapFinCount, ih, Nat.add_assoc]
      | failure => simp [snapFinCount, ih]

theorem snapEvents_unreach (err : Option String) (toH g toH2 g2 : Nat)
    (msgs : List RaftMsg) :
    unreachCount toH2 g2 (snapEvents err toH g msgs) = 0 := by
  induction msgs with
  | nil => rfl
  | cons msg rest ih =>
    cases hm : msg.hasSnapshot <;> simp [snapEvents, hm, unreachCount, ih]

theorem snapEvents_fail (err : Option String) (toH g : Nat) (msgs : List RaftMsg) :
    snapFailCount (snapEvents err toH g msgs)
      = if err.isSome then snapCountMsgs msgs else 0 := by
  induction msgs with
  | nil => cases err <;> rfl
  | cons msg rest ih =>
    cases err with
    | none =>
      cases hm : msg.hasSnapshot <;>
        simp [snapEvents, hm, snapStatusM, snapFailCount, ih]
    | some e =>
      cases hm : msg.hasSnapshot <;>
        simp [snapEvents, hm, snapStatusM, snapFailCount, snapCountMsgs, ih]

theorem snapEvents_fin (err : Option String) (toH g : Nat) (msgs : List RaftMsg) :
    snapFinCount (snapEvents err toH g msgs)
      = if err.isSome then 0 else snapCountMsgs msgs := by
  induction msgs with
  | nil => cases err <;> rfl
  | cons msg rest ih =>
    cases err with
    | none =>
      cases hm : msg.hasSnapshot <;>
        simp [snapEvents, hm, snapStatusM, snapFinCount, snapCountMsgs, ih]
    | some e =>
      cases hm : msg.hasSnapshot <;>
        simp [snapEvents, hm, snapStatusM, snapFinCount, ih]

theorem reportEvents_unreach (err : Option String) (toH g : Nat)
    (l : List (Nat × List RaftMsg)) :
    unreachCount toH g (reportEvents err toH l)
      = if err.isSome then groupOcc g l else 0 := by
  induction l with
  | nil => cases err <;> rfl
  | cons p rest ih =>
    obtain ⟨gg, msgs⟩ := p
    cases err with
    | none =>
      simp [reportEvents, unreachCount_append, snapEvents_unreach, ih]
    | some e =>
      simp [reportEvents, unreachCount_append, snapEvents_unreach, ih,
        unreachCount, groupOcc]
  
theorem reportEvents_fail (err : Option String) (toH : Nat)
    (l : List (Nat × List RaftMsg)) :
    snapFailCount (reportEvents err toH l)
      = if err.isSome then snapCount l else 0 := by
  induction l with
  | nil => cases err <;> rfl
  | cons p rest ih =>
    obtain ⟨gg, msgs⟩ := p
    cases err with
    | none =>
      simp [reportEvents, snapFailCount_append, snapEvents_fail, ih]
    | some e =>
      simp [reportEvents, snapFailCount_append, snapEvents_fail, ih,
        snapFailCount, snapCount]

theorem reportEvents_fin (err : Option String) (toH : Nat)
    (l : List (Nat × List RaftMsg)) :
    snapFinCount (reportEvents err toH l)
      = if err.isSome then 0 else snapCount l := by
  induction l with
  | nil => cases err <;> rfl
  | cons p rest ih =>
    obtain ⟨gg, msgs⟩ := p
    cases err with
    | none =>
      simp [reportEvents, snapFinCount_append, snapEvents_fin, ih,
        snapFinCount, snapCount]
    | some e =>
      simp [reportEvents, snapFinCount_append, snapEvents_fin, ih,
        snapFinCount]

/-! ## C8 -/

/-- C8: `rpcClientPool.sendRaft` drives the consensus reporter even when the
client cannot be obtained (including a backoff refusal): whenever the client
acquisition or the send errored, `ReportUnreachable` fires once per message
group of the batch and every message carrying a non-empty snapshot is
reported with `SnapshotFailure`; on a successful send no group is reported
unreachable and every snapshot message is reported with `SnapshotFinish`;
the effective error is returned. -/
theorem sendRaft_report_contract (ce se : Option String) (b : Batch) (g : Nat) :
    unreachCount b.To g (poolSendRaft ce se b).1
      = (if (if ce.isSome then ce else se).isSome then groupOcc g b.Messages else 0)
    ∧ snapFailCount (poolSendRaft ce se b).1
      = (if (if ce.isSome then ce else se).isSome then snapCount b.Messages else 0)
    ∧ snapFinCount (poolSendRaft ce se b).1
      = (if (if ce.isSome then ce else se).isSome then 0 else snapCount b.Messages)
    ∧ (poolSendRaft ce se b).2 = (if ce.isSome then ce else se) := by
  cases ce with
  | some e =>
    simp [poolSendRaft, reportEvents_unreach, reportEvents_fail,
      reportEvents_fin]
  | none =>
    cases se with
    | none =>
      simp [poolSendRaft, reportEvents_unreach, reportEvents_fail,
        reportEvents_fin]
    | some e =>
      simp [poolSendRaft, reportEvents_unreach, reportEvents_fail,
        reportEvents_fin]

/-! ## C9 -/

/-- C9 (the code evaluated at a failing input): with two commands, both
addressed to hive 9 while the server is hive 1, `ProcessCmd` returns a
result slice of the right length but fills only slot 0 (the collection loop
executes `return nil` after the first received result); slot 1 stays the
zero `cmdResult` instead of carrying command 1's error. -/
theorem processCmd_drops_second_result :
    processCmd x9env [x9c, x9c]
      = [⟨none, some "rpc-server: command to another hive"⟩, ⟨none, none⟩] := by
  rfl

end BH
